import Mathlib

/-!
Verification of the Chatwoot synchronization engine of
go-whatsapp-web-multidevice (src/infrastructure/chatwoot).

Shallow embedding conventions:
* Go strings are byte lists (`GoStr := List Nat`); `gs` turns an ASCII Lean
  string literal into its byte list.
* `time.Time` values are natural numbers (nanoseconds); the Go zero time is 0.
  Go standard-library time formatting is modelled by injective, separator-free
  digit encodings (the real RFC3339Nano rendering of a UTC instant is likewise
  injective and never contains the byte 0x7c).
* External collaborators (the SQL repository, the Chatwoot HTTP API, the
  WhatsApp client) are oracles carried in environment records; every remote
  mutation the engine issues is recorded in an explicit trace so that the
  theorems can speak about "remote creations" and "remote deletions".
* Fallible Go calls return `Except GoErr`.
-/

namespace Chatwoot

/-- A Go string, as its byte sequence. -/
abbrev GoStr := List Nat

/-- Byte list of an ASCII Lean string literal. -/
def gs (s : String) : GoStr := s.data.map Char.toNat

/-- A Go `error` value, tagged with its message. -/
inductive GoErr where
  | tag (s : String)
deriving DecidableEq

instance {ε α : Type} [DecidableEq ε] [DecidableEq α] : DecidableEq (Except ε α) := fun a b =>
  match a, b with
  | .error e1, .error e2 =>
    if h : e1 = e2 then isTrue (by rw [h]) else isFalse (by intro hh; cases hh; exact h rfl)
  | .ok a1, .ok a2 =>
    if h : a1 = a2 then isTrue (by rw [h]) else isFalse (by intro hh; cases hh; exact h rfl)
  | .error _, .ok _ => isFalse (by intro hh; cases hh)
  | .ok _, .error _ => isFalse (by intro hh; cases hh)

/-! ## FNV-64a (hash/fnv), as used by `messageKey` in sync.go -/

/-- One step of FNV-64a: xor in a byte, multiply by the 64-bit FNV prime. -/
def fnv64aStep (h b : Nat) : Nat := ((h ^^^ b) * 1099511628211) % (2 ^ 64)

/-- FNV-64a over a byte sequence, offset basis 0xcbf29ce484222325. -/
def fnv64a (bs : List Nat) : Nat := bs.foldl fnv64aStep 14695981039346656037

/-! ## Lowercase hex rendering (Go fmt `%x` of a uint64) -/

/-- Lowercase hexadecimal digit character for a value below 16. -/
def hexChar (n : Nat) : Char :=
  if n < 10 then Char.ofNat (48 + n) else Char.ofNat (87 + n)

/-- Base-16 digits of `n`, least significant first, empty for 0; the fuel
argument (instantiated with `n` itself, which bounds the digit count) makes
the recursion structural so that terms reduce definitionally. -/
def hexDigitsAux : Nat → Nat → List Nat
  | 0, _ => []
  | f + 1, n => if n = 0 then [] else n % 16 :: hexDigitsAux f (n / 16)

/-- Go `%x` of a nonnegative integer: lowercase hex, no leading zeros. -/
def toHexStr (n : Nat) : String :=
  if n = 0 then "0" else String.mk ((hexDigitsAux n n).reverse.map hexChar)

/-! ## Message and the idempotency key (sync.go `messageKey`) -/

/-- A WhatsApp message row (domains/chatstorage `Message`), restricted to the
fields the sync engine reads. -/
structure Message where
  timestamp : Nat
  sender : GoStr
  content : GoStr
  isFromMe : Bool
  mediaType : GoStr
  filename : GoStr
  url : GoStr
  mediaKey : List Nat
deriving DecidableEq

/-- Base-10 digits, least significant first, empty for 0; fuelled like
`hexDigitsAux` so that terms reduce definitionally. -/
def decDigitsAux : Nat → Nat → List Nat
  | 0, _ => []
  | f + 1, n => if n = 0 then [] else n % 10 :: decDigitsAux f (n / 10)

/-- Decimal byte string of a natural number. -/
def decBytes (n : Nat) : GoStr := ((decDigitsAux n n).map (fun d => d + 48)).reverse

/-- Byte encoding of `msg.Timestamp.UTC().Format(time.RFC3339Nano)`.  The Go
rendering is injective on instants and consists only of digits and the
punctuation `-:TZ.+`, never the byte 0x7c; it is modelled here by the decimal
digit string of the nanosecond count, which has the same two properties. -/
def tsRFC3339 (t : Nat) : List Nat := decBytes t

/-- The byte stream `messageKey` feeds to FNV-64a: the seven fields joined by
the separator byte 0x7c (`|`). -/
def serializeKey (deviceID chatJID : GoStr) (m : Message) : List Nat :=
  deviceID ++ 124 :: chatJID ++ 124 :: tsRFC3339 m.timestamp ++ 124 :: m.sender
    ++ 124 :: m.content ++ 124 :: m.mediaType ++ 124 :: m.url

/-- sync.go `messageKey`: FNV-64a over the joined fields, printed with `%x`. -/
def messageKey (deviceID chatJID : GoStr) (m : Message) : String :=
  toHexStr (fnv64a (serializeKey deviceID chatJID m))

/-! ## Echo-suppression guard (client.go) -/

/-- `sentMessageIDsTTL = 5 * time.Minute`, in nanoseconds. -/
def sentTTL : Nat := 300000000000

/-- The in-memory `sentMessageIDs` map: message ID to the `time.Now()` at
which it was marked. -/
structure GuardCache where
  entries : List (Nat × Nat)
deriving DecidableEq

/-- `sync.Map.Load`. -/
def cacheLoad (c : GuardCache) (id : Nat) : Option Nat :=
  (c.entries.find? (fun p => p.fst == id)).map Prod.snd

/-- `sync.Map.Store` (overwrite). -/
def cacheStore (c : GuardCache) (id t : Nat) : GuardCache :=
  ⟨(id, t) :: c.entries.filter (fun p => p.fst ≠ id)⟩

/-- `sync.Map.Delete`. -/
def cacheDelete (c : GuardCache) (id : Nat) : GuardCache :=
  ⟨c.entries.filter (fun p => p.fst ≠ id)⟩

/-- client.go `MarkMessageAsSent`, at current time `now`. -/
def markMessageAsSent (c : GuardCache) (now messageID : Nat) : GuardCache :=
  if messageID = 0 then c else cacheStore c messageID now

/-- client.go `IsMessageSentByUs`, at current time `now`; returns the answer
and the cache after the lazy eviction the query may perform.  `time.Since`
is `now - storedAt` (a mark from the future yields a nonpositive duration in
Go and 0 here; both fail the `> TTL` test). -/
def isMessageSentByUs (c : GuardCache) (now messageID : Nat) : Bool × GuardCache :=
  if messageID = 0 then (false, c)
  else
    match cacheLoad c messageID with
    | none => (false, c)
    | some storedAt =>
        if sentTTL < now - storedAt then (false, cacheDelete c messageID)
        else (true, c)

/-! ## client.go `CreateMessage` response handling -/

/-- The observable outcome of decoding the Chatwoot create-message response
(client.go, JSON branch).  `decoded` is `none` when `json.Unmarshal` fails on
the body and `some id` when it succeeds with `result.ID = id` (a body without
an `id` field decodes to 0).  Only HTTP status 200 is accepted; on 200 the
function returns the parsed ID when it is nonzero and `(0, nil)` otherwise. -/
def createMessageOutcome (status : Nat) (decoded : Option Int) : Except GoErr Int :=
  if status ≠ 200 then .error (.tag "failed to create message")
  else
    match decoded with
    | some id => if id ≠ 0 then .ok id else .ok 0
    | none => .ok 0

/-! ## Small association-map model of Go's `map[string]T`

Insertion overwrites the value of an existing key and otherwise appends, so a
map built by repeated insertion keeps "last write wins" semantics; iteration
in list order is one admissible order of Go's unspecified map range order. -/

/-- Lookup in an association map. -/
def mapLookup (m : List (String × α)) (k : String) : Option α :=
  (m.find? (fun p => p.fst == k)).map Prod.snd

/-- Insert into an association map, overwriting an existing binding. -/
def mapInsert (m : List (String × α)) (k : String) (v : α) : List (String × α) :=
  if m.any (fun p => p.fst == k) then
    m.map (fun p => if p.fst == k then (k, v) else p)
  else m ++ [(k, v)]

/-! ## Shared pieces of sync.go -/

/-- pkg/utils `ExtractPhoneFromJID` (not under src; modelled from the spec:
the sender label / "normalized phone number" is the user part of the JID
before the `@`). -/
def extractPhoneFromJID (jid : GoStr) : GoStr := jid.takeWhile (fun b => b != 64)

/-- Byte encoding of `msg.Timestamp.Format("2006-01-02 15:04")`: Go renders
the instant truncated to the minute; modelled as the decimal digit string of
the timestamp with sub-minute precision dropped. -/
def formatMinute (t : Nat) : GoStr := decBytes (t / 60000000000)

/-- Chatwoot contact handle; `avatarHashAttr` is the custom attribute
`waha_avatar_hash` when present as a string. -/
structure Contact where
  id : Nat
  avatarHashAttr : Option String
deriving DecidableEq

/-- Chatwoot conversation handle. -/
structure Conversation where
  id : Nat
deriving DecidableEq

/-- A chat row (domains/chatstorage `Chat`), restricted to the fields read. -/
structure Chat where
  jid : GoStr
  name : GoStr
deriving DecidableEq

/-- sync.go `SyncOptions` (declaration not under src; fields as used there). -/
structure SyncOptions where
  daysLimit : Nat
  includeMedia : Bool
  includeGroups : Bool
  maxMessagesPerChat : Nat
  batchSize : Nat
deriving DecidableEq

/-- Export-state / exported-message rows are keyed by (device, chat JID,
message key). -/
abbrev ExpKey := GoStr × GoStr × String

/-- Oracles for the external collaborators one `syncChat` run consults.
`messagesRes` is indexed by the `StartTime` of the repository filter;
`isExportedErr` says whether the `IsMessageExported` lookup fails with a
storage error; `sendRes` is the outcome of the Chatwoot `CreateMessage` call
(HTTP and decoding); `ctxErrAt i` is the context-cancellation poll before the
`i`-th message. -/
structure MsgEnv where
  contactRes : Except GoErr Contact
  convRes : Except GoErr Conversation
  exportStateRes : Except GoErr (Option Nat)
  messagesRes : Nat → Except GoErr (List Message)
  isExportedErr : String → Bool
  downloadRes : Message → Option GoStr
  sendRes : Message → Except GoErr Nat
  ctxErrAt : Nat → Bool

/-- What happened to one message inside the `syncChat` loop; each constructor
corresponds to the remote/storage calls the code issues for that message. -/
inductive MsgEvent where
  | checkFailed (key : String)
  | skipped (key : String)
  | sendFailed (key : String)
  | created (m : Message) (key : String) (content : GoStr) (chatwootID : Nat)
deriving DecidableEq

/-- The remote creations among a run's events. -/
def createdOf : List MsgEvent → List (Message × String × GoStr × Nat)
  | [] => []
  | .created m k c id :: es => (m, k, c, id) :: createdOf es
  | _ :: es => createdOf es

/-- Events counted by `progress.IncrementFailedMessages`. -/
def isFailedEvent : MsgEvent → Bool
  | .checkFailed _ => true
  | .sendFailed _ => true
  | _ => false

/-- sync.go `syncMessageReturnID`: build the prefixed text body (media
placeholder on download failure), submit to Chatwoot, mark the returned ID in
the echo guard.  Returns the remote ID together with the content sent.  The
attachment upload itself is part of the `sendRes` oracle. -/
def syncMessageReturnID (env : MsgEnv) (m : Message) (opts : SyncOptions)
    (isGroup : Bool) : Except GoErr (Nat × GoStr) :=
  let content0 :=
    if m.content = [] ∧ m.mediaType ≠ [] then gs "[" ++ m.mediaType ++ gs "]" else m.content
  let timeTag := formatMinute m.timestamp
  let content1 :=
    if isGroup ∧ m.isFromMe = false ∧ m.sender ≠ [] then
      gs "[" ++ timeTag ++ gs "] " ++ extractPhoneFromJID m.sender ++ gs ": " ++ content0
    else gs "[" ++ timeTag ++ gs "] " ++ content0
  let content :=
    if opts.includeMedia ∧ m.mediaType ≠ [] ∧ m.url ≠ [] ∧ m.mediaKey ≠ [] then
      match env.downloadRes m with
      | some _ => content1
      | none => content1 ++ gs " [media unavailable]"
    else content1
  match env.sendRes m with
  | .error e => .error e
  | .ok chatwootMsgID => .ok (chatwootMsgID, content)

/-- Output of the per-message loop of `syncChat`. -/
structure LoopOut where
  events : List MsgEvent
  exported : List ExpKey
  lastExported : Nat
  failedMessages : Nat
  abort : Option GoErr
deriving DecidableEq

/-- The `for i, msg := range messages` loop of `syncChat` (sync.go lines
207-236): poll the context, compute the idempotency key, consult
`IsMessageExported` (counting storage errors as failed messages), skip
already-exported messages, otherwise transfer and record the export, and
advance the local `lastExported` pointer.  The batch-throttle sleep has no
observable effect and is omitted. -/
def syncMsgLoop (deviceID chatJID : GoStr) (opts : SyncOptions) (env : MsgEnv)
    (isGroup : Bool) : Nat → List Message → List ExpKey → Nat → LoopOut
  | _, [], exported, lastExp => ⟨[], exported, lastExp, 0, none⟩
  | i, m :: rest, exported, lastExp =>
    if env.ctxErrAt i then ⟨[], exported, lastExp, 0, some (.tag "context cancelled")⟩
    else
      let key := messageKey deviceID chatJID m
      if env.isExportedErr key then
        let r := syncMsgLoop deviceID chatJID opts env isGroup (i + 1) rest exported lastExp
        { r with events := .checkFailed key :: r.events,
                 failedMessages := r.failedMessages + 1 }
      else if (deviceID, chatJID, key) ∈ exported then
        let r := syncMsgLoop deviceID chatJID opts env isGroup (i + 1) rest exported lastExp
        { r with events := .skipped key :: r.events }
      else
        match syncMessageReturnID env m opts isGroup with
        | .error _ =>
          let r := syncMsgLoop deviceID chatJID opts env isGroup (i + 1) rest exported lastExp
          { r with events := .sendFailed key :: r.events,
                   failedMessages := r.failedMessages + 1 }
        | .ok (chatwootMsgID, content) =>
          let r := syncMsgLoop deviceID chatJID opts env isGroup (i + 1) rest
            ((deviceID, chatJID, key) :: exported) m.timestamp
          { r with events := .created m key content chatwootMsgID :: r.events }

/-- The lower time bound of the fetch (sync.go lines 183-186): the stored
watermark when it lies strictly after `sinceTime`, else `sinceTime`. -/
def startOf (sinceTime : Nat) (state : Option Nat) : Nat :=
  match state with
  | some w => if sinceTime < w then w else sinceTime
  | none => sinceTime

/-- Result of one `syncChat` run: the Go return value, the event trace, the
final exported-message store, the `UpsertChatExportState` call if any, and
the progress-counter deltas. -/
structure ChatRunResult where
  res : Except GoErr Unit
  events : List MsgEvent
  exported : List ExpKey
  upsertCall : Option Nat
  failedMessages : Nat
  addedMessages : Nat
deriving DecidableEq

/-- sync.go `syncChat` (lines 149-252): group filter, contact/conversation
resolution, watermark-adjusted fetch, chronological sort, the message loop,
and the final watermark upsert (skipped when nothing was newly exported, and
skipped on context cancellation because the function returns early). -/
def syncChat (deviceID : GoStr) (chat : Chat) (sinceTime : Nat) (opts : SyncOptions)
    (env : MsgEnv) (exported0 : List ExpKey) : ChatRunResult :=
  let isGroup := (gs "@g.us").isSuffixOf chat.jid
  if isGroup && !opts.includeGroups then ⟨.ok (), [], exported0, none, 0, 0⟩
  else
    match env.contactRes with
    | .error e => ⟨.error e, [], exported0, none, 0, 0⟩
    | .ok _contact =>
      match env.convRes with
      | .error e => ⟨.error e, [], exported0, none, 0, 0⟩
      | .ok _conversation =>
        match env.exportStateRes with
        | .error e => ⟨.error e, [], exported0, none, 0, 0⟩
        | .ok state =>
          match env.messagesRes (startOf sinceTime state) with
          | .error e => ⟨.error e, [], exported0, none, 0, 0⟩
          | .ok messages =>
            if messages = [] then ⟨.ok (), [], exported0, none, 0, 0⟩
            else
              let sorted := messages.mergeSort (fun a b => a.timestamp ≤ b.timestamp)
              let out := syncMsgLoop deviceID chat.jid opts env isGroup 0 sorted exported0 0
              match out.abort with
              | some e =>
                ⟨.error e, out.events, out.exported, none, out.failedMessages, messages.length⟩
              | none =>
                ⟨.ok (), out.events, out.exported,
                  (if out.lastExported ≠ 0 then some out.lastExported else none),
                  out.failedMessages, messages.length⟩

/-- Per-run oracles for `SyncHistory`: the chat enumeration, the context
poll before each chat, and the per-chat message environment. -/
structure HistEnv where
  chatsRes : Except GoErr (List Chat)
  chatEnv : Nat → MsgEnv
  ctxChatErrAt : Nat → Bool

/-- The progress state machine's states (`SyncProgress` is not under src;
modelled from the spec: state is one of Idle, Running, Completed, Failed). -/
inductive ProgStatus where
  | idle
  | running
  | completed
  | failed
deriving DecidableEq

/-- Accumulated output of the per-chat loop of `SyncHistory`. -/
structure HistLoopOut where
  runs : List ChatRunResult
  exported : List ExpKey
  syncedChats : Nat
  failedChats : Nat
  failedMessages : Nat
  abort : Option GoErr

/-- The `for _, chat := range chats` loop of `SyncHistory` (sync.go lines
123-139): poll the context before each chat, run `syncChat`, and count the
chat as failed or synced without aborting the job. -/
def histChatLoop (deviceID : GoStr) (sinceTime : Nat) (opts : SyncOptions)
    (env : HistEnv) : Nat → List Chat → List ExpKey → HistLoopOut
  | _, [], exported => ⟨[], exported, 0, 0, 0, none⟩
  | i, chat :: rest, exported =>
    if env.ctxChatErrAt i then ⟨[], exported, 0, 0, 0, some (.tag "context cancelled")⟩
    else
      let r := syncChat deviceID chat sinceTime opts (env.chatEnv i) exported
      let out := histChatLoop deviceID sinceTime opts env (i + 1) rest r.exported
      match r.res with
      | .error _ =>
        { out with runs := r :: out.runs, failedChats := out.failedChats + 1,
                   failedMessages := out.failedMessages + r.failedMessages }
      | .ok _ =>
        { out with runs := r :: out.runs, syncedChats := out.syncedChats + 1,
                   failedMessages := out.failedMessages + r.failedMessages }

/-- Result of a `SyncHistory` run after the start guard admitted it. -/
structure HistResult where
  res : Except GoErr Unit
  status : ProgStatus
  totalChats : Nat
  syncedChats : Nat
  failedChats : Nat
  failedMessages : Nat
  chatRuns : List ChatRunResult
  exported : List ExpKey

/-- sync.go `SyncHistory` after the start guard (lines 104-145): enumerate
chats (failure is fatal for the job), compute the time boundary, run the
per-chat loop, and mark the progress Completed (or Failed on a fatal
error/cancellation). -/
def syncHistoryRun (deviceID : GoStr) (now : Nat) (opts : SyncOptions)
    (env : HistEnv) (exported0 : List ExpKey) : HistResult :=
  match env.chatsRes with
  | .error e => ⟨.error e, .failed, 0, 0, 0, 0, [], exported0⟩
  | .ok chats =>
    let sinceTime := now - opts.daysLimit * 86400000000000
    let out := histChatLoop deviceID sinceTime opts env 0 chats exported0
    match out.abort with
    | some e =>
      ⟨.error e, .failed, chats.length, out.syncedChats, out.failedChats,
        out.failedMessages, out.runs, out.exported⟩
    | none =>
      ⟨.ok (), .completed, chats.length, out.syncedChats, out.failedChats,
        out.failedMessages, out.runs, out.exported⟩

/-! ## sync.go `Reconcile` -/

/-- A Chatwoot message as returned by `GetConversationMessages`: its remote ID
and its `source_id` external-reference tag (empty when untagged). -/
structure CwMsg where
  id : Nat
  sourceID : String
deriving DecidableEq

/-- Oracles for one `Reconcile` run.  `DeleteMessage` and `CreateMessage`
outcomes are not part of the environment because the code discards both
results (lines 452 and 490-493). -/
structure RecEnv where
  contactRes : Except GoErr Contact
  convRes : Except GoErr Conversation
  messagesRes : Except GoErr (List Message)
  cwMsgsRes : Except GoErr (List CwMsg)
  downloadRes : Message → Option GoStr

/-- The `want` map of `Reconcile`: idempotency key to local message,
last write wins. -/
def buildWant (deviceID chatID : GoStr) (waMsgs : List Message) :
    List (String × Message) :=
  waMsgs.foldl (fun acc m => mapInsert acc (messageKey deviceID chatID m) m) []

/-- The `existing` map of `Reconcile`: `source_id` tag to remote message ID,
untagged messages skipped, last write wins. -/
def buildExisting (cwMsgs : List CwMsg) : List (String × Nat) :=
  cwMsgs.foldl (fun acc c => if c.sourceID ≠ "" then mapInsert acc c.sourceID c.id else acc) []

/-- The text body `Reconcile` builds for a missing message (sync.go lines
463-479); unlike the importer it never appends a media placeholder. -/
def reconcileContent (isGroup : Bool) (m : Message) : GoStr :=
  let content0 :=
    if m.content = [] ∧ m.mediaType ≠ [] then gs "[" ++ m.mediaType ++ gs "]" else m.content
  let timeTag := formatMinute m.timestamp
  if isGroup ∧ m.isFromMe = false ∧ m.sender ≠ [] then
    gs "[" ++ timeTag ++ gs "] " ++ extractPhoneFromJID m.sender ++ gs ": " ++ content0
  else gs "[" ++ timeTag ++ gs "] " ++ content0

/-- Result of one `Reconcile` run: the Go return value, the `DeleteMessage`
calls as (tag, remote ID) pairs, and the `CreateMessage` calls as
(tag, content, outgoing?, with attachment?) tuples. -/
structure RecResult where
  res : Except GoErr Unit
  deletions : List (String × Nat)
  creations : List (String × GoStr × Bool × Bool)
deriving DecidableEq

/-- sync.go `Reconcile` (lines 404-501): resolve contact and conversation,
build `want` from the local store and `existing` from the tagged remote
messages, delete every `existing` entry whose key is absent from `want`, and
create every `want` entry whose key is absent from `existing` (both
`DeleteMessage` and `CreateMessage` failures are only logged). -/
def reconcile (deviceID chatID : GoStr) (env : RecEnv) : RecResult :=
  let isGroup := (gs "@g.us").isSuffixOf chatID
  match env.contactRes with
  | .error e => ⟨.error e, [], []⟩
  | .ok _contact =>
    match env.convRes with
    | .error e => ⟨.error e, [], []⟩
    | .ok _conversation =>
      match env.messagesRes with
      | .error e => ⟨.error e, [], []⟩
      | .ok waMsgs =>
        match env.cwMsgsRes with
        | .error e => ⟨.error e, [], []⟩
        | .ok cwMsgs =>
          let want := buildWant deviceID chatID waMsgs
          let existing := buildExisting cwMsgs
          let deletions := existing.filter (fun p => (mapLookup want p.fst).isNone)
          let creations :=
            (want.filter (fun p => (mapLookup existing p.fst).isNone)).map
              (fun p =>
                (p.fst, reconcileContent isGroup p.snd, p.snd.isFromMe,
                  decide (p.snd.mediaType ≠ [] ∧ p.snd.url ≠ [] ∧ p.snd.mediaKey ≠ [])
                    && (env.downloadRes p.snd).isSome))
          ⟨.ok (), deletions, creations⟩

/-- The remote thread after the mutations of a `Reconcile` run are applied:
deleted IDs removed, created messages appended carrying their tag, with
`fresh` assigning the server IDs of the new messages. -/
def remoteAfter (cw : List CwMsg) (r : RecResult) (fresh : String → Nat) : List CwMsg :=
  cw.filter (fun c => !(r.deletions.any (fun d => d.snd == c.id)))
    ++ r.creations.map (fun p => ⟨fresh p.fst, p.fst⟩)

/-! ## avatar_sync.go `SyncContactAvatarSmart` -/

/-- One `UpdateContactAttributes` call of the avatar sync: every call carries
`waha_whatsapp_jid` and `waha_avatar_checked_at`; `hash` is the
`waha_avatar_hash` entry when the call writes one. -/
structure AttrsCall where
  hash : Option String
deriving DecidableEq

/-- Oracles for one `SyncContactAvatarSmart` run.  `picURL` is `none` when
`GetProfilePictureInfo` errors or yields no URL; `downloadRes` is the HTTP
fetch of the picture: an error for a transport/read failure, otherwise the
status code and body; `hashFn` models the crypto/sha256 hex digest. -/
structure AvatarEnv where
  contactRes : Except GoErr Contact
  jidParseOk : Bool
  picURL : Option GoStr
  downloadStatus : Except GoErr Nat
  downloadBody : Except GoErr (List Nat)
  uploadRes : Except GoErr Unit
  hashFn : List Nat → String

/-- Result of one `SyncContactAvatarSmart` run: the Go return value, the
`UpdateContactAvatar` calls, and the `UpdateContactAttributes` calls. -/
structure AvatarResult where
  res : Except GoErr Unit
  uploads : List (Nat × List Nat)
  attrCalls : List AttrsCall
deriving DecidableEq

/-- avatar_sync.go `SyncContactAvatarSmart` (lines 55-160): resolve the
contact (under the per-JID lock), fetch the profile-picture URL (absence
stamps `checked_at` and succeeds), download the bytes (non-200 or empty body
likewise stamps and succeeds), hash them, compare with the stored
`waha_avatar_hash`, and upload plus stamp the new hash only when they
differ; an upload failure returns the error without touching attributes. -/
def syncContactAvatarSmart (env : AvatarEnv) : AvatarResult :=
  match env.contactRes with
  | .error e => ⟨.error e, [], []⟩
  | .ok contact =>
    if !env.jidParseOk then ⟨.error (.tag "invalid jid"), [], []⟩
    else
      match env.picURL with
      | none => ⟨.ok (), [], [⟨none⟩]⟩
      | some _ =>
        match env.downloadStatus with
        | .error e => ⟨.error e, [], []⟩
        | .ok status =>
          if status ≠ 200 then ⟨.ok (), [], [⟨none⟩]⟩
          else
            match env.downloadBody with
            | .error e => ⟨.error e, [], []⟩
            | .ok imgData =>
              if imgData = [] then ⟨.ok (), [], [⟨none⟩]⟩
              else
                let newHash := env.hashFn imgData
                let oldHash := contact.avatarHashAttr.getD ""
                if oldHash ≠ "" ∧ oldHash = newHash then ⟨.ok (), [], [⟨none⟩]⟩
                else
                  match env.uploadRes with
                  | .error e => ⟨.error e, [(contact.id, imgData)], []⟩
                  | .ok _ => ⟨.ok (), [(contact.id, imgData)], [⟨some newHash⟩]⟩

/-! ## The `SyncHistory` start guard (sync.go lines 90-102)

`SyncProgress` itself is not under src.  Modelled from the spec: the progress
record is created at job start and transitions Idle to Running ("state ∈
Idle/Running/Completed/Failed ... transitions monotonically Idle→Running");
`IsRunning` tests the Running state, `Clone` deep-copies, and reads return
copies.  The guard is modelled as a two-caller interleaving system in which
the mutex-protected check-and-set (lines 93-100) is one atomic step and the
`progress.SetRunning()` that follows the unlock (line 102) is a second step;
the store holds a reference to the owning caller's record, as the Go map
holds a pointer. -/

/-- Modelled from the spec: `NewSyncProgress` creates the per-device progress
record in its initial (Idle) state. -/
def newSyncProgress : ProgStatus := .idle

/-- Modelled from the spec: `IsRunning` tests the Running state. -/
def progIsRunning (p : ProgStatus) : Bool := p == .running

/-- Where each of the two competing `SyncHistory` callers stands. -/
inductive CallerPhase where
  | beforeGuard
  | guardPassed
  | guardRejected
  | runningSet
deriving DecidableEq

/-- One caller: its phase, its own progress record, the snapshot it was
handed on rejection, and whether it received the already-in-progress error. -/
structure Caller where
  phase : CallerPhase
  prog : ProgStatus
  snapshot : Option ProgStatus
  gotError : Bool
deriving DecidableEq

/-- The shared state: the device's `progressMap` entry (referencing caller 1
or caller 2's record) and the two callers. -/
structure GuardSys where
  store : Option Bool
  c1 : Caller
  c2 : Caller
deriving DecidableEq

/-- Both callers poised to run `SyncHistory`, no entry in the map. -/
def guardInit : GuardSys :=
  ⟨none, ⟨.beforeGuard, newSyncProgress, none, false⟩,
    ⟨.beforeGuard, newSyncProgress, none, false⟩⟩

/-- The progress record the map entry currently references. -/
def storedProg (s : GuardSys) : Option ProgStatus :=
  s.store.map (fun who => if who then (s.c2).prog else (s.c1).prog)

/-- Advance one caller by one atomic step: its guarded check-and-set if it
has not run yet (reject with a cloned snapshot when the stored record is
Running, otherwise install its own fresh record), then its `SetRunning`. -/
def guardStep (s : GuardSys) (who : Bool) : GuardSys :=
  let c := if who then s.c2 else s.c1
  let update := fun (s2 : GuardSys) (c2 : Caller) =>
    if who then { s2 with c2 := c2 } else { s2 with c1 := c2 }
  match c.phase with
  | .beforeGuard =>
    match storedProg s with
    | some p =>
      if progIsRunning p then
        update s { c with phase := .guardRejected, snapshot := some p, gotError := true }
      else
        update { s with store := some who } { c with phase := .guardPassed }
    | none =>
      update { s with store := some who } { c with phase := .guardPassed }
  | .guardPassed =>
    update s { c with phase := .runningSet, prog := .running }
  | _ => s

/-- Run a schedule (false = caller 1, true = caller 2). -/
def guardRun (sched : List Bool) : GuardSys :=
  sched.foldl guardStep guardInit

/-! # Helper lemmas -/

theorem cacheLoad_store_self (c : GuardCache) (id t : Nat) :
    cacheLoad (cacheStore c id t) id = some t := by
  simp [cacheLoad, cacheStore, List.find?]

theorem cacheLoad_delete_self (c : GuardCache) (id : Nat) :
    cacheLoad (cacheDelete c id) id = none := by
  have h : (c.entries.filter (fun p => p.fst ≠ id)).find? (fun p => p.fst == id) = none := by
    rw [List.find?_eq_none]
    intro p hp
    have := (List.mem_filter.mp hp).2
    simpa using this
  simp [cacheLoad, cacheDelete, h]

/-- Decimal value of a little-endian digit list. -/
def ofDec (l : List Nat) : Nat := l.foldr (fun d acc => d + 10 * acc) 0

theorem ofDec_decDigitsAux : ∀ f n, n ≤ f → ofDec (decDigitsAux f n) = n := by
  intro f
  induction f with
  | zero =>
    intro n hn
    interval_cases n
    simp [decDigitsAux, ofDec]
  | succ f ih =>
    intro n hn
    by_cases h0 : n = 0
    · subst h0; simp [decDigitsAux, ofDec]
    · have hdiv : n / 10 ≤ f := by
        have : n / 10 < n := Nat.div_lt_self (Nat.pos_of_ne_zero h0) (by decide)
        omega
      simp only [decDigitsAux, if_neg h0, ofDec, List.foldr_cons]
      have := ih (n / 10) hdiv
      simp only [ofDec] at this
      rw [this]
      exact Nat.mod_add_div n 10

theorem decBytes_injective {a b : Nat} (h : decBytes a = decBytes b) : a = b := by
  unfold decBytes at h
  have h2 := List.reverse_injective h
  have h3 : decDigitsAux a a = decDigitsAux b b := by
    have hinj : Function.Injective (fun d : Nat => d + 48) := fun x y hxy =>
      Nat.add_right_cancel hxy
    exact List.map_injective_iff.mpr hinj h2
  calc a = ofDec (decDigitsAux a a) := (ofDec_decDigitsAux a a le_rfl).symm
    _ = ofDec (decDigitsAux b b) := by rw [h3]
    _ = b := ofDec_decDigitsAux b b le_rfl

theorem decDigitsAux_lt_ten : ∀ f n d, d ∈ decDigitsAux f n → d < 10 := by
  intro f
  induction f with
  | zero => intro n d hd; simp [decDigitsAux] at hd
  | succ f ih =>
    intro n d hd
    by_cases h0 : n = 0
    · subst h0; simp [decDigitsAux] at hd
    · simp only [decDigitsAux, if_neg h0, List.mem_cons] at hd
      rcases hd with hd | hd
      · subst hd; exact Nat.mod_lt n (by decide)
      · exact ih _ _ hd

theorem sep_not_mem_decBytes (n : Nat) : (124 : Nat) ∉ decBytes n := by
  intro h
  unfold decBytes at h
  rw [List.mem_reverse, List.mem_map] at h
  obtain ⟨d, hd, hval⟩ := h
  have := decDigitsAux_lt_ten n n d hd
  omega

/-- Splitting a byte stream at a separator absent from both left parts. -/
theorem sep_split : ∀ {as : List Nat} {bs : List Nat} {cs ds : List Nat},
    (124 : Nat) ∉ as → (124 : Nat) ∉ cs →
    as ++ 124 :: bs = cs ++ 124 :: ds → as = cs ∧ bs = ds := by
  intro as
  induction as with
  | nil =>
    intro bs cs ds _ hc h
    cases cs with
    | nil => simpa using h
    | cons x cs2 =>
      simp only [List.nil_append, List.cons_append, List.cons.injEq] at h
      exact absurd (h.1 ▸ List.mem_cons_self x cs2) hc
  | cons a as2 ih =>
    intro bs cs ds ha hc h
    cases cs with
    | nil =>
      simp only [List.cons_append, List.nil_append, List.cons.injEq] at h
      exact absurd (h.1 ▸ List.mem_cons_self a as2) ha
    | cons x cs2 =>
      simp only [List.cons_append, List.cons.injEq] at h
      have ha2 : (124 : Nat) ∉ as2 := fun hm => ha (List.mem_cons_of_mem a hm)
      have hc2 : (124 : Nat) ∉ cs2 := fun hm => hc (List.mem_cons_of_mem x hm)
      obtain ⟨h1, h2⟩ := ih ha2 hc2 h.2
      exact ⟨by rw [h.1, h1], h2⟩

/-! # Claims -/

/-- C7 counterexample.  The claim says `IsMessageSentByUs` answers true only
when strictly less than the TTL has elapsed since the mark; but when exactly
the TTL (5 minutes) has elapsed the code's `time.Since(storedAt) > TTL` test
is false and it still answers true. -/
theorem echoGuard_exact_ttl_counterexample :
    (isMessageSentByUs (markMessageAsSent ⟨[]⟩ 0 1) sentTTL 1).fst = true
      ∧ ¬(sentTTL - 0 < sentTTL) := by
  constructor
  · rfl
  · simp [sentTTL]

/-- C7 amended: for a nonzero remote ID marked at time `t`, a query at `now`
answers true exactly when at most the TTL has elapsed (boundary included);
an unmarked ID answers false; and once strictly more than the TTL has
elapsed the query lazily evicts the entry from the cache. -/
theorem echoGuard_ttl_semantics (c : GuardCache) (t now id : Nat) (h : id ≠ 0) :
    ((isMessageSentByUs (markMessageAsSent c t id) now id).fst = true ↔ now - t ≤ sentTTL)
    ∧ (cacheLoad c id = none → (isMessageSentByUs c now id).fst = false)
    ∧ (sentTTL < now - t →
        cacheLoad (isMessageSentByUs (markMessageAsSent c t id) now id).snd id = none) := by
  have hmark : markMessageAsSent c t id = cacheStore c id t := by
    simp [markMessageAsSent, h]
  refine ⟨?_, ?_, ?_⟩
  · rw [hmark]
    simp only [isMessageSentByUs, if_neg h, cacheLoad_store_self]
    split
    · next hlt => simp [Nat.not_le.mpr hlt]
    · next hge => simp [Nat.not_lt.mp (by simpa using hge)]
  · intro hnone
    simp [isMessageSentByUs, if_neg h, hnone]
  · intro hgt
    rw [hmark]
    simp only [isMessageSentByUs, if_neg h, cacheLoad_store_self, if_pos hgt]
    exact cacheLoad_delete_self _ _

theorem echoGuard_ttl_semantics_witness :
    (3 : Nat) ≠ 0
    ∧ (((isMessageSentByUs (markMessageAsSent ⟨[]⟩ 10 3) 20 3).fst = true ↔ 20 - 10 ≤ sentTTL)
      ∧ (cacheLoad ⟨[]⟩ 3 = none → (isMessageSentByUs ⟨[]⟩ 20 3).fst = false)
      ∧ (sentTTL < 20 - 10 →
          cacheLoad (isMessageSentByUs (markMessageAsSent ⟨[]⟩ 10 3) 20 3).snd 3 = none)) :=
  ⟨by decide, echoGuard_ttl_semantics ⟨[]⟩ 10 20 3 (by decide)⟩

/-- C10 counterexample.  The claim says `CreateMessage` returns `(0, nil)`
for any 2xx response without a parseable nonzero id; but the code accepts
only status 200, so a 201 response yields an error, not `(0, nil)`. -/
theorem createMessage_2xx_counterexample :
    200 ≤ 201 ∧ 201 < 300 ∧ createMessageOutcome 201 none ≠ .ok 0 := by
  refine ⟨by decide, by decide, ?_⟩
  simp [createMessageOutcome]

/-- C10 amended: on a 200 response whose body has no parseable nonzero id,
`CreateMessage` returns `(0, nil)`; `MarkMessageAsSent 0` is a no-op and
`IsMessageSentByUs 0` is always false, so such messages are never suppressed
by the in-memory echo guard. -/
theorem createMessage_zero_id_echo_gap (decoded : Option Int) (c : GuardCache) (now : Nat)
    (h : decoded = none ∨ decoded = some 0) :
    createMessageOutcome 200 decoded = .ok 0
    ∧ markMessageAsSent c now 0 = c
    ∧ (isMessageSentByUs c now 0).fst = false := by
  refine ⟨?_, by simp [markMessageAsSent], by simp [isMessageSentByUs]⟩
  obtain h | h := h <;> subst h <;> simp [createMessageOutcome]

theorem createMessage_zero_id_echo_gap_witness :
    ((none : Option Int) = none ∨ (none : Option Int) = some 0)
    ∧ (createMessageOutcome 200 none = .ok 0
      ∧ markMessageAsSent ⟨[(7, 1)]⟩ 4 0 = ⟨[(7, 1)]⟩
      ∧ (isMessageSentByUs ⟨[(7, 1)]⟩ 4 0).fst = false) :=
  ⟨Or.inl rfl, createMessage_zero_id_echo_gap none ⟨[(7, 1)]⟩ 4 (Or.inl rfl)⟩

/-- C3: the start guard's check-and-set is not atomic with the transition to
Running.  `NewSyncProgress` creates the record before the lock, the map entry
is installed under the lock, but `SetRunning` runs only after the unlock; so
in the schedule guard1, guard2, setRunning1, setRunning2 the second caller
finds a stored record that is not yet Running, overwrites the entry without
receiving the already-in-progress error, and both jobs end up Running — the
code's own comment claims the check-and-set prevents this race.  For
contrast, when the first caller completes `SetRunning` before the second
caller's guarded section, the second caller is rejected with the error and a
snapshot, as the claim demands. -/
theorem startGuard_race :
    ((guardRun [false, true, false, true]).c1.gotError = false
      ∧ (guardRun [false, true, false, true]).c2.gotError = false
      ∧ progIsRunning (guardRun [false, true, false, true]).c1.prog = true
      ∧ progIsRunning (guardRun [false, true, false, true]).c2.prog = true)
    ∧ ((guardRun [false, false, true]).c2.gotError = true
      ∧ (guardRun [false, false, true]).c2.snapshot = some .running
      ∧ storedProg (guardRun [false, false, true]) = some .running) := by
  decide

/-- A message whose serializer input collides with `collB`: the fields
(content, mediaType, url) = ("a|b", "c", "d") and ("a", "b", "c|d") join to
the same byte stream. -/
def collA : Message := ⟨5, gs "s1", gs "a|b", false, gs "c", [], gs "d", []⟩

/-- See `collA`. -/
def collB : Message := ⟨5, gs "s1", gs "a", false, gs "b", [], gs "c|d", []⟩

/-- C5 counterexample.  The claim says any change to content, media type or
media URL yields a different key up to 64-bit hash collision; but the fields
are joined with a `|` separator that may itself occur inside a field, so two
messages differing in all three of those fields can produce the identical
hash input and hence with certainty the identical key. -/
theorem messageKey_separator_collision :
    messageKey (gs "dev") (gs "chat") collA = messageKey (gs "dev") (gs "chat") collB
    ∧ collA.content ≠ collB.content
    ∧ collA.mediaType ≠ collB.mediaType
    ∧ collA.url ≠ collB.url := by
  refine ⟨rfl, by decide, by decide, by decide⟩

/-- C5 amended: `messageKey` is the pure function hashing the `|`-joined
field stream with FNV-64a, and its hash input is injective in
(deviceID, chatJID, timestamp, sender, content, mediaType, url) as long as
the string fields other than the final URL do not contain the separator
byte `|`; under that proviso a change to any field changes the key except
for a genuine 64-bit FNV collision.  Without the proviso distinct fields can
collide with certainty (see the counterexample). -/
theorem messageKey_determinism_and_separator_free_injectivity
    (d1 d2 c1 c2 : GoStr) (m1 m2 : Message)
    (hd1 : (124 : Nat) ∉ d1) (hd2 : (124 : Nat) ∉ d2)
    (hc1 : (124 : Nat) ∉ c1) (hc2 : (124 : Nat) ∉ c2)
    (hs1 : (124 : Nat) ∉ m1.sender) (hs2 : (124 : Nat) ∉ m2.sender)
    (hco1 : (124 : Nat) ∉ m1.content) (hco2 : (124 : Nat) ∉ m2.content)
    (hm1 : (124 : Nat) ∉ m1.mediaType) (hm2 : (124 : Nat) ∉ m2.mediaType) :
    messageKey d1 c1 m1 = toHexStr (fnv64a (serializeKey d1 c1 m1))
    ∧ (serializeKey d1 c1 m1 = serializeKey d2 c2 m2 ↔
        (d1 = d2 ∧ c1 = c2 ∧ m1.timestamp = m2.timestamp ∧ m1.sender = m2.sender
          ∧ m1.content = m2.content ∧ m1.mediaType = m2.mediaType ∧ m1.url = m2.url)) := by
  refine ⟨rfl, ?_, ?_⟩
  · intro h
    simp only [serializeKey, tsRFC3339, List.append_assoc, List.cons_append] at h
    obtain ⟨h1, h⟩ := sep_split hd1 hd2 h
    obtain ⟨h2, h⟩ := sep_split hc1 hc2 h
    obtain ⟨h3, h⟩ := sep_split (sep_not_mem_decBytes _) (sep_not_mem_decBytes _) h
    obtain ⟨h4, h⟩ := sep_split hs1 hs2 h
    obtain ⟨h5, h⟩ := sep_split hco1 hco2 h
    obtain ⟨h6, h7⟩ := sep_split hm1 hm2 h
    exact ⟨h1, h2, decBytes_injective h3, h4, h5, h6, h7⟩
  · rintro ⟨e1, e2, e3, e4, e5, e6, e7⟩
    simp only [serializeKey, tsRFC3339, e1, e2, e3, e4, e5, e6, e7]

/-- A separator-free concrete message for witnesses. -/
def wMsg : Message := ⟨7, gs "snd", gs "hello", true, gs "image", [], gs "u", [1]⟩

theorem messageKey_determinism_witness :
    ((124 : Nat) ∉ gs "dv" ∧ (124 : Nat) ∉ gs "ch" ∧ (124 : Nat) ∉ wMsg.sender
      ∧ (124 : Nat) ∉ wMsg.content ∧ (124 : Nat) ∉ wMsg.mediaType)
    ∧ (messageKey (gs "dv") (gs "ch") wMsg = toHexStr (fnv64a (serializeKey (gs "dv") (gs "ch") wMsg))
      ∧ (serializeKey (gs "dv") (gs "ch") wMsg = serializeKey (gs "dv") (gs "ch") wMsg ↔
          (gs "dv" = gs "dv" ∧ gs "ch" = gs "ch" ∧ wMsg.timestamp = wMsg.timestamp
            ∧ wMsg.sender = wMsg.sender ∧ wMsg.content = wMsg.content
            ∧ wMsg.mediaType = wMsg.mediaType ∧ wMsg.url = wMsg.url))) :=
  ⟨by decide,
    messageKey_determinism_and_separator_free_injectivity (gs "dv") (gs "dv") (gs "ch") (gs "ch")
      wMsg wMsg (by decide) (by decide) (by decide) (by decide) (by decide) (by decide)
      (by decide) (by decide) (by decide) (by decide)⟩

theorem syncMsgLoop_no_create (deviceID chatJID : GoStr) (opts : SyncOptions) (env : MsgEnv)
    (isGroup : Bool) :
    ∀ (msgs : List Message) (i : Nat) (exported : List ExpKey) (lastExp : Nat),
      (∀ m ∈ msgs, (deviceID, chatJID, messageKey deviceID chatJID m) ∈ exported) →
      createdOf (syncMsgLoop deviceID chatJID opts env isGroup i msgs exported lastExp).events
        = [] := by
  intro msgs
  induction msgs with
  | nil => intro i exported lastExp _; simp [syncMsgLoop, createdOf]
  | cons m rest ih =>
    intro i exported lastExp hmem
    rw [syncMsgLoop]
    have hm := hmem m (List.mem_cons_self m rest)
    have hrest := ih (i + 1) exported lastExp (fun x hx => hmem x (List.mem_cons_of_mem m hx))
    by_cases hctx : env.ctxErrAt i = true
    · simp [hctx, createdOf]
    · by_cases hchk : env.isExportedErr (messageKey deviceID chatJID m) = true
      · simp [hctx, hchk, createdOf, hrest]
      · simp [hctx, hchk, hm, createdOf, hrest]

/-- C1: when every message the repository returns is already recorded as
exported for its key, a `syncChat` run issues zero remote message creations:
each key is checked with `IsMessageExported` and the message is skipped. -/
theorem syncChat_at_most_once (deviceID : GoStr) (chat : Chat) (sinceTime : Nat)
    (opts : SyncOptions) (env : MsgEnv) (exported0 : List ExpKey)
    (hexp : ∀ start msgs, env.messagesRes start = .ok msgs →
      ∀ m ∈ msgs, (deviceID, chat.jid, messageKey deviceID chat.jid m) ∈ exported0) :
    createdOf (syncChat deviceID chat sinceTime opts env exported0).events = [] := by
  rw [syncChat]
  by_cases hgrp : (List.isSuffixOf (gs "@g.us") chat.jid && !opts.includeGroups) = true
  · simp [hgrp, createdOf]
  · rw [if_neg hgrp]
    cases hcon : env.contactRes with
    | error e => simp [hcon, createdOf]
    | ok contact =>
      cases hconv : env.convRes with
      | error e => simp [hcon, hconv, createdOf]
      | ok conversation =>
        cases hst : env.exportStateRes with
        | error e => simp [hcon, hconv, hst, createdOf]
        | ok state =>
          cases hmsg : env.messagesRes (startOf sinceTime state) with
          | error e => simp [hcon, hconv, hst, hmsg, createdOf]
          | ok messages =>
            have hloop := syncMsgLoop_no_create deviceID chat.jid opts env
              (List.isSuffixOf (gs "@g.us") chat.jid)
              (messages.mergeSort fun a b => decide (a.timestamp ≤ b.timestamp))
              0 exported0 0
              (fun m hm => hexp _ _ hmsg m (List.mem_mergeSort.mp hm))
            by_cases hnil : messages = []
            · simp [hcon, hconv, hst, hmsg, hnil, createdOf]
            · cases habort : (syncMsgLoop deviceID chat.jid opts env
                  (List.isSuffixOf (gs "@g.us") chat.jid) 0
                  (messages.mergeSort fun a b => decide (a.timestamp ≤ b.timestamp))
                  exported0 0).abort with
              | none => simp [hcon, hconv, hst, hmsg, hnil, habort, hloop]
              | some e => simp [hcon, hconv, hst, hmsg, hnil, habort, hloop]

/-- Concrete environment for the C1 witness: one message, its key already
recorded as exported. -/
def wEnvC1 : MsgEnv where
  contactRes := .ok ⟨1, none⟩
  convRes := .ok ⟨2⟩
  exportStateRes := .ok none
  messagesRes := fun _ => .ok [wMsg]
  isExportedErr := fun _ => false
  downloadRes := fun _ => none
  sendRes := fun _ => .ok 9
  ctxErrAt := fun _ => false

theorem syncChat_at_most_once_witness :
    (∀ start msgs, wEnvC1.messagesRes start = .ok msgs →
      ∀ m ∈ msgs, (gs "dv", (Chat.mk (gs "cjid") (gs "nm")).jid,
        messageKey (gs "dv") (Chat.mk (gs "cjid") (gs "nm")).jid m)
          ∈ [(gs "dv", gs "cjid", messageKey (gs "dv") (gs "cjid") wMsg)])
    ∧ createdOf (syncChat (gs "dv") (Chat.mk (gs "cjid") (gs "nm")) 3
        ⟨7, true, true, 100, 10⟩ wEnvC1
        [(gs "dv", gs "cjid", messageKey (gs "dv") (gs "cjid") wMsg)]).events = [] := by
  have hexp : ∀ start msgs, wEnvC1.messagesRes start = .ok msgs →
      ∀ m ∈ msgs, (gs "dv", (Chat.mk (gs "cjid") (gs "nm")).jid,
        messageKey (gs "dv") (Chat.mk (gs "cjid") (gs "nm")).jid m)
          ∈ [(gs "dv", gs "cjid", messageKey (gs "dv") (gs "cjid") wMsg)] := by
    intro start msgs h m hm
    have : msgs = [wMsg] := by
      simpa [wEnvC1] using h.symm
    subst this
    have : m = wMsg := by simpa using hm
    subst this
    simp
  exact ⟨hexp, syncChat_at_most_once (gs "dv") (Chat.mk (gs "cjid") (gs "nm")) 3
    ⟨7, true, true, 100, 10⟩ wEnvC1
    [(gs "dv", gs "cjid", messageKey (gs "dv") (gs "cjid") wMsg)] hexp⟩

/-- The timestamp of the last remote creation in an event trace, with a
default for traces without creations. -/
def lastTsOf (events : List MsgEvent) (dflt : Nat) : Nat :=
  match (createdOf events).getLast? with
  | some e => e.fst.timestamp
  | none => dflt

theorem createdOf_noncreated (x : MsgEvent) (es : List MsgEvent)
    (hx : ∀ m k c id, x ≠ .created m k c id) :
    createdOf (x :: es) = createdOf es := by
  cases x with
  | created m k c id => exact absurd rfl (hx m k c id)
  | checkFailed k => rfl
  | skipped k => rfl
  | sendFailed k => rfl

theorem lastTsOf_noncreated (x : MsgEvent) (es : List MsgEvent) (dflt : Nat)
    (hx : ∀ m k c id, x ≠ .created m k c id) :
    lastTsOf (x :: es) dflt = lastTsOf es dflt := by
  simp [lastTsOf, createdOf_noncreated x es hx]

theorem lastTsOf_created (m : Message) (k : String) (c : GoStr) (id : Nat)
    (es : List MsgEvent) (dflt : Nat) :
    lastTsOf (.created m k c id :: es) dflt = lastTsOf es m.timestamp := by
  show (match ((m, k, c, id) :: createdOf es).getLast? with
    | some e => e.fst.timestamp
    | none => dflt) = _
  cases hes : createdOf es with
  | nil => simp [lastTsOf, hes]
  | cons e0 es0 =>
    simp only [lastTsOf, hes, List.getLast?_cons_cons]
    cases h2 : (e0 :: es0).getLast? with
    | none => simp at h2
    | some e => rfl

/-- Everything provable about the `syncChat` message loop by one induction:
with no cancellation it never aborts, it emits exactly one event per message,
its failed-messages counter counts the failed events, its `lastExported`
pointer is the timestamp of the last creation (or the initial value when
nothing was created), and every created message comes from the input list. -/
theorem syncMsgLoop_spec (deviceID chatJID : GoStr) (opts : SyncOptions) (env : MsgEnv)
    (isGroup : Bool) (hctx : ∀ j, env.ctxErrAt j = false) :
    ∀ (msgs : List Message) (i : Nat) (exported : List ExpKey) (lastExp : Nat),
      (syncMsgLoop deviceID chatJID opts env isGroup i msgs exported lastExp).abort = none
      ∧ (syncMsgLoop deviceID chatJID opts env isGroup i msgs exported lastExp).events.length
          = msgs.length
      ∧ (syncMsgLoop deviceID chatJID opts env isGroup i msgs exported lastExp).failedMessages
          = ((syncMsgLoop deviceID chatJID opts env isGroup i msgs exported
              lastExp).events.filter isFailedEvent).length
      ∧ (syncMsgLoop deviceID chatJID opts env isGroup i msgs exported lastExp).lastExported
          = lastTsOf (syncMsgLoop deviceID chatJID opts env isGroup i msgs exported
              lastExp).events lastExp
      ∧ ∀ e ∈ createdOf (syncMsgLoop deviceID chatJID opts env isGroup i msgs exported
          lastExp).events, e.fst ∈ msgs := by
  intro msgs
  induction msgs with
  | nil =>
    intro i exported lastExp
    simp [syncMsgLoop, createdOf, lastTsOf]
  | cons m rest ih =>
    intro i exported lastExp
    rw [syncMsgLoop]
    simp only [hctx i, Bool.false_eq_true, if_false]
    by_cases hchk : env.isExportedErr (messageKey deviceID chatJID m) = true
    · obtain ⟨ih1, ih2, ih3, ih4, ih5⟩ := ih (i + 1) exported lastExp
      refine ⟨by simp [hchk, ih1], by simp [hchk, ih2], ?_, ?_, ?_⟩
      · simp [hchk, List.filter, isFailedEvent, ih3]
      · simpa [hchk, lastTsOf_noncreated (.checkFailed _) _ _ (by intro _ _ _ _ h; cases h)]
          using ih4
      · intro e he
        have : e ∈ createdOf (syncMsgLoop deviceID chatJID opts env isGroup (i + 1) rest
            exported lastExp).events := by
          simpa [hchk, createdOf] using he
        exact List.mem_cons_of_mem m (ih5 e this)
    · by_cases hmem : (deviceID, chatJID, messageKey deviceID chatJID m) ∈ exported
      · obtain ⟨ih1, ih2, ih3, ih4, ih5⟩ := ih (i + 1) exported lastExp
        refine ⟨by simp [hchk, hmem, ih1], by simp [hchk, hmem, ih2], ?_, ?_, ?_⟩
        · simp [hchk, hmem, List.filter, isFailedEvent, ih3]
        · simpa [hchk, hmem, lastTsOf_noncreated (.skipped _) _ _ (by intro _ _ _ _ h; cases h)]
            using ih4
        · intro e he
          have : e ∈ createdOf (syncMsgLoop deviceID chatJID opts env isGroup (i + 1) rest
              exported lastExp).events := by
            simpa [hchk, hmem, createdOf] using he
          exact List.mem_cons_of_mem m (ih5 e this)
      · cases hsend : syncMessageReturnID env m opts isGroup with
        | error e0 =>
          obtain ⟨ih1, ih2, ih3, ih4, ih5⟩ := ih (i + 1) exported lastExp
          refine ⟨by simp [hchk, hmem, hsend, ih1], by simp [hchk, hmem, hsend, ih2], ?_, ?_, ?_⟩
          · simp [hchk, hmem, hsend, List.filter, isFailedEvent, ih3]
          · simpa [hchk, hmem, hsend,
              lastTsOf_noncreated (.sendFailed _) _ _ (by intro _ _ _ _ h; cases h)] using ih4
          · intro e he
            have : e ∈ createdOf (syncMsgLoop deviceID chatJID opts env isGroup (i + 1) rest
                exported lastExp).events := by
              simpa [hchk, hmem, hsend, createdOf] using he
            exact List.mem_cons_of_mem m (ih5 e this)
        | ok idc =>
          obtain ⟨chatwootMsgID, content⟩ := idc
          obtain ⟨ih1, ih2, ih3, ih4, ih5⟩ :=
            ih (i + 1) ((deviceID, chatJID, messageKey deviceID chatJID m) :: exported) m.timestamp
          refine ⟨by simp [hchk, hmem, hsend, ih1], by simp [hchk, hmem, hsend, ih2], ?_, ?_, ?_⟩
          · simp [hchk, hmem, hsend, List.filter, isFailedEvent, ih3]
          · simpa [hchk, hmem, hsend, lastTsOf_created] using ih4
          · intro e he
            have he2 : e = (m, messageKey deviceID chatJID m, content, chatwootMsgID)
                ∨ e ∈ createdOf (syncMsgLoop deviceID chatJID opts env isGroup (i + 1) rest
                    ((deviceID, chatJID, messageKey deviceID chatJID m) :: exported)
                    m.timestamp).events := by
              simpa [hchk, hmem, hsend, createdOf] using he
            rcases he2 with he2 | he2
            · subst he2; exact List.mem_cons_self m rest
            · exact List.mem_cons_of_mem m (ih5 e he2)

/-- C4: after a full (uncancelled) `syncChat` run whose collaborators resolve
and whose fetched messages carry positive timestamps (the repository returns
only messages strictly after the nonnegative bound, and the Go zero time is
0), the persisted watermark is exactly the timestamp of the last message
successfully delivered to Chatwoot during the run; when no message was newly
exported, no watermark is written. -/
theorem syncChat_watermark (deviceID : GoStr) (chat : Chat) (sinceTime : Nat)
    (opts : SyncOptions) (env : MsgEnv) (exported0 : List ExpKey)
    (contact : Contact) (conversation : Conversation) (state : Option Nat)
    (msgs : List Message)
    (hcon : env.contactRes = .ok contact) (hconv : env.convRes = .ok conversation)
    (hst : env.exportStateRes = .ok state)
    (hmsg : env.messagesRes (startOf sinceTime state) = .ok msgs)
    (hctx : ∀ j, env.ctxErrAt j = false)
    (hpos : ∀ m ∈ msgs, 0 < m.timestamp) :
    (syncChat deviceID chat sinceTime opts env exported0).upsertCall
      = (createdOf (syncChat deviceID chat sinceTime opts env exported0).events).getLast?.map
          (fun e => e.fst.timestamp) := by
  rw [syncChat]
  by_cases hgrp : (List.isSuffixOf (gs "@g.us") chat.jid && !opts.includeGroups) = true
  · simp [hgrp, createdOf]
  · rw [if_neg hgrp]
    obtain ⟨h1, h2, h3, h4, h5⟩ := syncMsgLoop_spec deviceID chat.jid opts env
      (List.isSuffixOf (gs "@g.us") chat.jid) hctx
      (msgs.mergeSort fun a b => decide (a.timestamp ≤ b.timestamp)) 0 exported0 0
    by_cases hnil : msgs = []
    · simp [hcon, hconv, hst, hmsg, hnil, createdOf]
    · cases hlast : (createdOf (syncMsgLoop deviceID chat.jid opts env
          (List.isSuffixOf (gs "@g.us") chat.jid) 0
          (msgs.mergeSort fun a b => decide (a.timestamp ≤ b.timestamp))
          exported0 0).events).getLast? with
      | none =>
        have hzero : (syncMsgLoop deviceID chat.jid opts env
            (List.isSuffixOf (gs "@g.us") chat.jid) 0
            (msgs.mergeSort fun a b => decide (a.timestamp ≤ b.timestamp))
            exported0 0).lastExported = 0 := by
          rw [h4]; simp [lastTsOf, hlast]
        simp [hcon, hconv, hst, hmsg, hnil, h1, hzero, hlast]
      | some e =>
        have hmeml : e ∈ createdOf (syncMsgLoop deviceID chat.jid opts env
            (List.isSuffixOf (gs "@g.us") chat.jid) 0
            (msgs.mergeSort fun a b => decide (a.timestamp ≤ b.timestamp))
            exported0 0).events := by
          obtain ⟨hne, heq⟩ := List.mem_getLast?_eq_getLast (Option.mem_def.mpr hlast)
          rw [heq]; exact List.getLast_mem hne
        have hts : 0 < e.fst.timestamp :=
          hpos _ (List.mem_mergeSort.mp (h5 e hmeml))
        have hlastexp : (syncMsgLoop deviceID chat.jid opts env
            (List.isSuffixOf (gs "@g.us") chat.jid) 0
            (msgs.mergeSort fun a b => decide (a.timestamp ≤ b.timestamp))
            exported0 0).lastExported = e.fst.timestamp := by
          rw [h4]; simp [lastTsOf, hlast]
        simp [hcon, hconv, hst, hmsg, hnil, h1, hlastexp, hlast, hts.ne']

/-- Concrete environment for the C4 witness: two fresh messages, the second
delivery fails, so the watermark must record the first (and only) success. -/
def wMsg2 : Message := ⟨9, gs "snd", gs "later", false, [], [], [], []⟩

def wEnvC4 : MsgEnv where
  contactRes := .ok ⟨1, none⟩
  convRes := .ok ⟨2⟩
  exportStateRes := .ok (some 1)
  messagesRes := fun _ => .ok [wMsg2, wMsg]
  isExportedErr := fun _ => false
  downloadRes := fun _ => none
  sendRes := fun m => if m.timestamp = 9 then .error (.tag "api down") else .ok 44
  ctxErrAt := fun _ => false

theorem syncChat_watermark_witness :
    wEnvC4.contactRes = .ok ⟨1, none⟩
    ∧ wEnvC4.convRes = .ok ⟨2⟩
    ∧ wEnvC4.exportStateRes = .ok (some 1)
    ∧ wEnvC4.messagesRes (startOf 0 (some 1)) = .ok [wMsg2, wMsg]
    ∧ (∀ j, wEnvC4.ctxErrAt j = false)
    ∧ (∀ m ∈ [wMsg2, wMsg], 0 < m.timestamp)
    ∧ (syncChat (gs "dv") (Chat.mk (gs "cjid") (gs "nm")) 0 ⟨7, true, true, 100, 10⟩
        wEnvC4 []).upsertCall
      = (createdOf (syncChat (gs "dv") (Chat.mk (gs "cjid") (gs "nm")) 0
          ⟨7, true, true, 100, 10⟩ wEnvC4 []).events).getLast?.map (fun e => e.fst.timestamp) :=
  ⟨rfl, rfl, rfl, rfl, fun _ => rfl, by decide,
    syncChat_watermark (gs "dv") (Chat.mk (gs "cjid") (gs "nm")) 0 ⟨7, true, true, 100, 10⟩
      wEnvC4 [] ⟨1, none⟩ ⟨2⟩ (some 1) [wMsg2, wMsg] rfl rfl rfl rfl (fun _ => rfl) (by decide)⟩

/-- Whether a chat run returned nil (counted by `IncrementSyncedChats`). -/
def runOk (r : ChatRunResult) : Bool :=
  match r.res with
  | .ok _ => true
  | .error _ => false

theorem histChatLoop_spec (deviceID : GoStr) (sinceTime : Nat) (opts : SyncOptions)
    (env : HistEnv) (hctx : ∀ j, env.ctxChatErrAt j = false) :
    ∀ (chats : List Chat) (i : Nat) (exported : List ExpKey),
      (histChatLoop deviceID sinceTime opts env i chats exported).abort = none
      ∧ (histChatLoop deviceID sinceTime opts env i chats exported).runs.length = chats.length
      ∧ (histChatLoop deviceID sinceTime opts env i chats exported).syncedChats
          + (histChatLoop deviceID sinceTime opts env i chats exported).failedChats
          = chats.length
      ∧ (histChatLoop deviceID sinceTime opts env i chats exported).failedChats
          = ((histChatLoop deviceID sinceTime opts env i chats
              exported).runs.filter (fun r => !runOk r)).length
      ∧ (histChatLoop deviceID sinceTime opts env i chats exported).failedMessages
          = ((histChatLoop deviceID sinceTime opts env i chats
              exported).runs.map (fun r => r.failedMessages)).sum := by
  intro chats
  induction chats with
  | nil => intro i exported; simp [histChatLoop]
  | cons chat rest ih =>
    intro i exported
    rw [histChatLoop]
    simp only [hctx i, Bool.false_eq_true, if_false]
    obtain ⟨ih1, ih2, ih3, ih4, ih5⟩ :=
      ih (i + 1) (syncChat deviceID chat sinceTime opts (env.chatEnv i) exported).exported
    cases hres : (syncChat deviceID chat sinceTime opts (env.chatEnv i) exported).res with
    | error e =>
      refine ⟨by simp [hres, ih1], by simp [hres, ih2], ?_, ?_, ?_⟩
      · simp only [hres]; simp; omega
      · simp [hres, List.filter, runOk, ih4]
      · simp [hres, ih5]; omega
    | ok u =>
      refine ⟨by simp [hres, ih1], by simp [hres, ih2], ?_, ?_, ?_⟩
      · simp only [hres]; simp; omega
      · simp [hres, List.filter, runOk, ih4]
      · simp [hres, ih5]; omega

/-- C9: failures are isolated at both granularities.  Chat level: with the
chat enumeration succeeding and no cancellation, `SyncHistory` completes
(returns nil), runs `syncChat` once for every chat whatever the individual
outcomes, counts exactly the failed runs in `FailedChats`, counts every chat
either synced or failed, and accumulates the per-chat failed-message counts.
Message level: an uncancelled `syncChat` run whose resolution steps succeed
returns nil, emits exactly one event per fetched message (so a failed
message never stops the loop), and counts exactly the failed events in
`FailedMessages`. -/
theorem sync_failure_isolation :
    (∀ (deviceID : GoStr) (now : Nat) (opts : SyncOptions) (henv : HistEnv)
        (exported0 : List ExpKey) (chats : List Chat),
      henv.chatsRes = .ok chats → (∀ j, henv.ctxChatErrAt j = false) →
      (syncHistoryRun deviceID now opts henv exported0).res = .ok ()
      ∧ (syncHistoryRun deviceID now opts henv exported0).chatRuns.length = chats.length
      ∧ (syncHistoryRun deviceID now opts henv exported0).syncedChats
          + (syncHistoryRun deviceID now opts henv exported0).failedChats = chats.length
      ∧ (syncHistoryRun deviceID now opts henv exported0).failedChats
          = ((syncHistoryRun deviceID now opts henv
              exported0).chatRuns.filter (fun r => !runOk r)).length
      ∧ (syncHistoryRun deviceID now opts henv exported0).failedMessages
          = ((syncHistoryRun deviceID now opts henv
              exported0).chatRuns.map (fun r => r.failedMessages)).sum)
    ∧ (∀ (deviceID : GoStr) (chat : Chat) (sinceTime : Nat) (opts : SyncOptions)
        (env : MsgEnv) (exported0 : List ExpKey) (contact : Contact)
        (conversation : Conversation) (state : Option Nat) (msgs : List Message),
      env.contactRes = .ok contact → env.convRes = .ok conversation →
      env.exportStateRes = .ok state →
      env.messagesRes (startOf sinceTime state) = .ok msgs →
      (∀ j, env.ctxErrAt j = false) →
      (syncChat deviceID chat sinceTime opts env exported0).res = .ok ()
      ∧ ((List.isSuffixOf (gs "@g.us") chat.jid && !opts.includeGroups) = false →
          (syncChat deviceID chat sinceTime opts env exported0).events.length = msgs.length)
      ∧ (syncChat deviceID chat sinceTime opts env exported0).failedMessages
          = ((syncChat deviceID chat sinceTime opts env
              exported0).events.filter isFailedEvent).length) := by
  constructor
  · intro deviceID now opts henv exported0 chats hchats hctx
    obtain ⟨h1, h2, h3, h4, h5⟩ := histChatLoop_spec deviceID
      (now - opts.daysLimit * 86400000000000) opts henv hctx chats 0 exported0
    rw [syncHistoryRun]
    simp only [hchats]
    simp [h1, h2, h4, h5]
    omega
  · intro deviceID chat sinceTime opts env exported0 contact conversation state msgs
      hcon hconv hst hmsg hctx
    rw [syncChat]
    by_cases hgrp : (List.isSuffixOf (gs "@g.us") chat.jid && !opts.includeGroups) = true
    · simp [hgrp]
    · rw [if_neg hgrp]
      obtain ⟨h1, h2, h3, h4, h5⟩ := syncMsgLoop_spec deviceID chat.jid opts env
        (List.isSuffixOf (gs "@g.us") chat.jid) hctx
        (msgs.mergeSort fun a b => decide (a.timestamp ≤ b.timestamp)) 0 exported0 0
      by_cases hnil : msgs = []
      · simp [hcon, hconv, hst, hmsg, hnil]
      · refine ⟨?_, fun _ => ?_, ?_⟩
        · simp [hcon, hconv, hst, hmsg, hnil, h1]
        · simp only [hcon, hconv, hst, hmsg, if_neg hnil, h1]
          simpa using h2
        · simp only [hcon, hconv, hst, hmsg, if_neg hnil, h1]
          simpa using h3

/-- An environment whose contact resolution fails, making its chat count as
failed. -/
def wEnvFail : MsgEnv where
  contactRes := .error (.tag "contact 404")
  convRes := .ok ⟨2⟩
  exportStateRes := .ok none
  messagesRes := fun _ => .ok []
  isExportedErr := fun _ => false
  downloadRes := fun _ => none
  sendRes := fun _ => .ok 1
  ctxErrAt := fun _ => false

/-- Two chats: the first fails resolution, the second proceeds. -/
def wHistEnv : HistEnv where
  chatsRes := .ok [⟨gs "bad", []⟩, ⟨gs "cjid", gs "nm"⟩]
  chatEnv := fun i => if i = 0 then wEnvFail else wEnvC4
  ctxChatErrAt := fun _ => false

theorem sync_failure_isolation_witness :
    (wHistEnv.chatsRes = .ok [⟨gs "bad", []⟩, ⟨gs "cjid", gs "nm"⟩]
      ∧ (∀ j, wHistEnv.ctxChatErrAt j = false)
      ∧ ((syncHistoryRun (gs "dv") 0 ⟨7, true, true, 100, 10⟩ wHistEnv []).res = .ok ()
        ∧ (syncHistoryRun (gs "dv") 0 ⟨7, true, true, 100, 10⟩ wHistEnv []).chatRuns.length
            = [(⟨gs "bad", []⟩ : Chat), ⟨gs "cjid", gs "nm"⟩].length
        ∧ (syncHistoryRun (gs "dv") 0 ⟨7, true, true, 100, 10⟩ wHistEnv []).syncedChats
            + (syncHistoryRun (gs "dv") 0 ⟨7, true, true, 100, 10⟩ wHistEnv []).failedChats
            = [(⟨gs "bad", []⟩ : Chat), ⟨gs "cjid", gs "nm"⟩].length
        ∧ (syncHistoryRun (gs "dv") 0 ⟨7, true, true, 100, 10⟩ wHistEnv []).failedChats
            = ((syncHistoryRun (gs "dv") 0 ⟨7, true, true, 100, 10⟩ wHistEnv
                []).chatRuns.filter (fun r => !runOk r)).length
        ∧ (syncHistoryRun (gs "dv") 0 ⟨7, true, true, 100, 10⟩ wHistEnv []).failedMessages
            = ((syncHistoryRun (gs "dv") 0 ⟨7, true, true, 100, 10⟩ wHistEnv
                []).chatRuns.map (fun r => r.failedMessages)).sum))
    ∧ (wEnvC4.contactRes = .ok ⟨1, none⟩
      ∧ wEnvC4.messagesRes (startOf 0 (some 1)) = .ok [wMsg2, wMsg]
      ∧ ((syncChat (gs "dv") (Chat.mk (gs "cjid") (gs "nm")) 0 ⟨7, true, true, 100, 10⟩
            wEnvC4 []).res = .ok ()
        ∧ ((List.isSuffixOf (gs "@g.us") (Chat.mk (gs "cjid") (gs "nm")).jid
              && !(⟨7, true, true, 100, 10⟩ : SyncOptions).includeGroups) = false →
            (syncChat (gs "dv") (Chat.mk (gs "cjid") (gs "nm")) 0 ⟨7, true, true, 100, 10⟩
              wEnvC4 []).events.length = [wMsg2, wMsg].length)
        ∧ (syncChat (gs "dv") (Chat.mk (gs "cjid") (gs "nm")) 0 ⟨7, true, true, 100, 10⟩
            wEnvC4 []).failedMessages
          = ((syncChat (gs "dv") (Chat.mk (gs "cjid") (gs "nm")) 0 ⟨7, true, true, 100, 10⟩
              wEnvC4 []).events.filter isFailedEvent).length)) :=
  ⟨⟨rfl, fun _ => rfl,
    sync_failure_isolation.1 (gs "dv") 0 ⟨7, true, true, 100, 10⟩ wHistEnv []
      [⟨gs "bad", []⟩, ⟨gs "cjid", gs "nm"⟩] rfl (fun _ => rfl)⟩,
   ⟨rfl, rfl,
    sync_failure_isolation.2 (gs "dv") (Chat.mk (gs "cjid") (gs "nm")) 0
      ⟨7, true, true, 100, 10⟩ wEnvC4 [] ⟨1, none⟩ ⟨2⟩ (some 1) [wMsg2, wMsg]
      rfl rfl rfl rfl (fun _ => rfl)⟩⟩

theorem find?_map_overwrite {γ : Type} (m : List (String × γ)) (k k2 : String) (v : γ)
    (h : k2 ≠ k) :
    (m.map (fun q => if q.fst == k then (k, v) else q)).find? (fun q => q.fst == k2)
      = m.find? (fun q => q.fst == k2) := by
  induction m with
  | nil => rfl
  | cons p m ih =>
    rw [List.map_cons]
    by_cases hpk : (p.fst == k) = true
    · have hk : p.fst = k := by simpa using hpk
      have h1 : (((k, v) : String × γ).fst == k2) = false := by
        simp only [beq_eq_false_iff_ne]
        exact fun hh => h hh.symm
      have h2 : (p.fst == k2) = false := by rw [hk]; exact h1
      rw [if_pos hpk]
      simp only [List.find?, h1, h2]
      exact ih
    · rw [if_neg hpk]
      simp only [List.find?]
      by_cases hp2 : (p.fst == k2) = true
      · simp [hp2]
      · have hp2f : (p.fst == k2) = false := by simpa using hp2
        simp only [hp2f]
        exact ih

theorem find?_map_overwrite_self {γ : Type} (m : List (String × γ)) (k : String) (v : γ)
    (h : (m.any fun q => q.fst == k) = true) :
    (m.map (fun q => if q.fst == k then (k, v) else q)).find? (fun q => q.fst == k)
      = some (k, v) := by
  induction m with
  | nil => simp at h
  | cons p m ih =>
    rw [List.map_cons]
    by_cases hpk : (p.fst == k) = true
    · rw [if_pos hpk]
      simp [List.find?]
    · have hpkf : (p.fst == k) = false := by simpa using hpk
      rw [if_neg hpk]
      simp only [List.find?, hpkf]
      exact ih (by simpa [hpkf] using h)

theorem find?_append_none {γ : Type} (p : (String × γ) → Bool) (m l : List (String × γ))
    (h : m.find? p = none) : (m ++ l).find? p = l.find? p := by
  rw [List.find?_append, h, Option.none_or]

theorem mapLookup_mapInsert {γ : Type} (m : List (String × γ)) (k k2 : String) (v : γ) :
    mapLookup (mapInsert m k v) k2 = if k2 = k then some v else mapLookup m k2 := by
  by_cases hany : (m.any fun q => q.fst == k) = true
  · rw [mapInsert, if_pos hany]
    by_cases h2 : k2 = k
    · subst h2
      rw [if_pos rfl]
      simp only [mapLookup]
      rw [find?_map_overwrite_self m k2 v hany]
      rfl
    · rw [if_neg h2]
      simp only [mapLookup]
      rw [find?_map_overwrite m k k2 v h2]
  · rw [mapInsert, if_neg hany]
    by_cases h2 : k2 = k
    · subst h2
      rw [if_pos rfl]
      have hnone : m.find? (fun q => q.fst == k2) = none := by
        rw [List.find?_eq_none]
        intro x hx hpred
        exact hany (List.any_eq_true.mpr ⟨x, hx, hpred⟩)
      simp only [mapLookup]
      rw [find?_append_none _ m _ hnone]
      simp [List.find?]
    · rw [if_neg h2]
      simp only [mapLookup]
      rw [List.find?_append]
      have hsingle : ([((k, v) : String × γ)].find? fun q => q.fst == k2) = none := by
        rw [List.find?_eq_none]
        intro x hx hpred
        have hx2 : x = (k, v) := by simpa using hx
        subst hx2
        have hkk : k = k2 := by simpa using hpred
        exact h2 hkk.symm
      rw [hsingle, Option.or_none]

theorem mapLookup_mapInsert_isSome {γ : Type} (m : List (String × γ)) (k k2 : String) (v : γ) :
    (mapLookup (mapInsert m k v) k2).isSome = true ↔ (k2 = k ∨ (mapLookup m k2).isSome = true) := by
  rw [mapLookup_mapInsert]
  by_cases h : k2 = k <;> simp [h]

theorem mem_mapInsert {γ : Type} (m : List (String × γ)) (k k2 : String) (v v2 : γ)
    (h : (k2, v2) ∈ mapInsert m k v) : (k2, v2) = (k, v) ∨ (k2, v2) ∈ m := by
  rw [mapInsert] at h
  split at h
  · rw [List.mem_map] at h
    obtain ⟨q, hq, hfq⟩ := h
    by_cases hqk : (q.fst == k) = true
    · rw [if_pos hqk] at hfq
      exact Or.inl hfq.symm
    · rw [if_neg hqk] at hfq
      exact Or.inr (hfq ▸ hq)
  · rcases List.mem_append.mp h with h | h
    · exact Or.inr h
    · exact Or.inl (by simpa using h)

theorem mapLookup_eq_some_mem {γ : Type} (m : List (String × γ)) (k : String) (v : γ)
    (h : mapLookup m k = some v) : (k, v) ∈ m := by
  rw [mapLookup] at h
  cases hf : m.find? (fun q => q.fst == k) with
  | none => rw [hf] at h; cases h
  | some q =>
    rw [hf] at h
    have hq : q ∈ m := List.mem_of_find?_eq_some hf
    have hpred := List.find?_some hf
    have hk : q.fst = k := by simpa using hpred
    have hv : q.snd = v := by simpa using h
    have : q = (k, v) := Prod.ext hk hv
    exact this ▸ hq

theorem mem_mapLookup_isSome {γ : Type} (m : List (String × γ)) (k : String) (v : γ)
    (h : (k, v) ∈ m) : (mapLookup m k).isSome = true := by
  simp only [mapLookup]
  have hs : (m.find? (fun q => q.fst == k)).isSome = true :=
    List.find?_isSome.mpr ⟨(k, v), h, by simp⟩
  cases hf : m.find? (fun q => q.fst == k) with
  | none => rw [hf] at hs; cases hs
  | some q => rfl

theorem mapLookup_foldl_insert_isSome {β γ : Type} (keyf : β → String) (valf : β → γ) :
    ∀ (l : List β) (acc : List (String × γ)) (k : String),
      (mapLookup (l.foldl (fun a x => mapInsert a (keyf x) (valf x)) acc) k).isSome = true
        ↔ ((mapLookup acc k).isSome = true ∨ ∃ x ∈ l, keyf x = k) := by
  intro l
  induction l with
  | nil => intro acc k; simp
  | cons x l ih =>
    intro acc k
    rw [List.foldl_cons, ih]
    rw [mapLookup_mapInsert_isSome]
    constructor
    · rintro ((h | h) | h)
      · exact Or.inr ⟨x, List.mem_cons_self x l, h.symm⟩
      · exact Or.inl h
      · obtain ⟨y, hy, hk⟩ := h
        exact Or.inr ⟨y, List.mem_cons_of_mem x hy, hk⟩
    · rintro (h | ⟨y, hy, hk⟩)
      · exact Or.inl (Or.inr h)
      · rcases List.mem_cons.mp hy with hy | hy
        · exact Or.inl (Or.inl (hy ▸ hk).symm)
        · exact Or.inr ⟨y, hy, hk⟩

theorem mem_foldl_insert {β γ : Type} (keyf : β → String) (valf : β → γ) :
    ∀ (l : List β) (acc : List (String × γ)) (k : String) (v : γ),
      (k, v) ∈ l.foldl (fun a x => mapInsert a (keyf x) (valf x)) acc →
      (k, v) ∈ acc ∨ ∃ x ∈ l, keyf x = k ∧ valf x = v := by
  intro l
  induction l with
  | nil => intro acc k v h; exact Or.inl h
  | cons x l ih =>
    intro acc k v h
    rw [List.foldl_cons] at h
    rcases ih _ k v h with h | ⟨y, hy, hk, hv⟩
    · rcases mem_mapInsert _ _ _ _ _ h with h | h
      · have h1 : k = keyf x := congrArg Prod.fst h
        have h2 : v = valf x := congrArg Prod.snd h
        exact Or.inr ⟨x, List.mem_cons_self x l, h1.symm, h2.symm⟩
      · exact Or.inl h
    · exact Or.inr ⟨y, List.mem_cons_of_mem x hy, hk, hv⟩

theorem buildWant_isSome (deviceID chatID : GoStr) (msgs : List Message) (k : String) :
    (mapLookup (buildWant deviceID chatID msgs) k).isSome = true
      ↔ ∃ m ∈ msgs, messageKey deviceID chatID m = k := by
  unfold buildWant
  rw [mapLookup_foldl_insert_isSome (fun m => messageKey deviceID chatID m) (fun m => m) msgs [] k]
  simp [mapLookup]

theorem mem_buildWant (deviceID chatID : GoStr) (msgs : List Message) (k : String) (v : Message)
    (h : (k, v) ∈ buildWant deviceID chatID msgs) :
    ∃ m ∈ msgs, messageKey deviceID chatID m = k ∧ m = v := by
  unfold buildWant at h
  rcases mem_foldl_insert _ _ msgs [] k v h with h | ⟨m, hm, hk, hv⟩
  · simp at h
  · exact ⟨m, hm, hk, hv⟩

theorem buildExisting_eq (cwMsgs : List CwMsg) :
    buildExisting cwMsgs
      = (cwMsgs.filter (fun c => decide (c.sourceID ≠ ""))).foldl
          (fun a c => mapInsert a c.sourceID c.id) [] := by
  unfold buildExisting
  suffices h : ∀ acc : List (String × Nat),
      cwMsgs.foldl (fun acc c => if c.sourceID ≠ "" then mapInsert acc c.sourceID c.id else acc) acc
        = (cwMsgs.filter (fun c => decide (c.sourceID ≠ ""))).foldl
            (fun a c => mapInsert a c.sourceID c.id) acc by
    exact h []
  induction cwMsgs with
  | nil => intro acc; rfl
  | cons c rest ih =>
    intro acc
    rw [List.foldl_cons, List.filter_cons]
    by_cases hc : c.sourceID ≠ ""
    · rw [if_pos hc, if_pos (by simpa using hc), List.foldl_cons]
      exact ih _
    · rw [if_neg hc, if_neg (by simpa using hc)]
      exact ih _

theorem buildExisting_isSome (cwMsgs : List CwMsg) (k : String) :
    (mapLookup (buildExisting cwMsgs) k).isSome = true
      ↔ ∃ c ∈ cwMsgs, c.sourceID = k ∧ c.sourceID ≠ "" := by
  rw [buildExisting_eq,
    mapLookup_foldl_insert_isSome (fun c : CwMsg => c.sourceID) (fun c => c.id) _ [] k]
  constructor
  · rintro (h | ⟨c, hcf, hk⟩)
    · simp [mapLookup] at h
    · have hmf := List.mem_filter.mp hcf
      exact ⟨c, hmf.1, hk, by simpa using hmf.2⟩
  · rintro ⟨c, hc, hk, hne⟩
    exact Or.inr ⟨c, List.mem_filter.mpr ⟨hc, by simpa using hne⟩, hk⟩

theorem mem_buildExisting (cwMsgs : List CwMsg) (k : String) (id : Nat)
    (h : (k, id) ∈ buildExisting cwMsgs) :
    ∃ c ∈ cwMsgs, c.sourceID = k ∧ c.id = id ∧ c.sourceID ≠ "" := by
  rw [buildExisting_eq] at h
  rcases mem_foldl_insert _ _ _ [] k id h with h | ⟨c, hc, h1, h2⟩
  · simp at h
  · have hmf := List.mem_filter.mp hc
    exact ⟨c, hmf.1, h1, h2, by simpa using hmf.2⟩

/-- The result of a `Reconcile` run whose collaborators all resolve. -/
theorem reconcile_eq (deviceID chatID : GoStr) (env : RecEnv)
    (contact : Contact) (conversation : Conversation)
    (waMsgs : List Message) (cwMsgs : List CwMsg)
    (h1 : env.contactRes = .ok contact) (h2 : env.convRes = .ok conversation)
    (h3 : env.messagesRes = .ok waMsgs) (h4 : env.cwMsgsRes = .ok cwMsgs) :
    reconcile deviceID chatID env
      = ⟨.ok (),
          (buildExisting cwMsgs).filter
            (fun p => (mapLookup (buildWant deviceID chatID waMsgs) p.fst).isNone),
          ((buildWant deviceID chatID waMsgs).filter
            (fun p => (mapLookup (buildExisting cwMsgs) p.fst).isNone)).map
            (fun p =>
              (p.fst, reconcileContent ((gs "@g.us").isSuffixOf chatID) p.snd, p.snd.isFromMe,
                decide (p.snd.mediaType ≠ [] ∧ p.snd.url ≠ [] ∧ p.snd.mediaKey ≠ [])
                  && (env.downloadRes p.snd).isSome))⟩ := by
  rw [reconcile]
  simp [h1, h2, h3, h4]

/-- C2: against resolved collaborators, `Reconcile` deletes exactly the keys
remotely tagged but absent from the local key set `Want`, creates exactly the
local keys absent from the tagged remote set `Existing`, and issues no remote
mutation for a key present in both; `Want` consists of the keys of the local
messages and `Existing` of the non-empty remote `source_id` tags. -/
theorem reconcile_correct (deviceID chatID : GoStr) (env : RecEnv)
    (contact : Contact) (conversation : Conversation)
    (waMsgs : List Message) (cwMsgs : List CwMsg)
    (h1 : env.contactRes = .ok contact) (h2 : env.convRes = .ok conversation)
    (h3 : env.messagesRes = .ok waMsgs) (h4 : env.cwMsgsRes = .ok cwMsgs) :
    (∀ k, (mapLookup (buildWant deviceID chatID waMsgs) k).isSome = true
        ↔ ∃ m ∈ waMsgs, messageKey deviceID chatID m = k)
    ∧ (∀ k, (mapLookup (buildExisting cwMsgs) k).isSome = true
        ↔ ∃ c ∈ cwMsgs, c.sourceID = k ∧ c.sourceID ≠ "")
    ∧ (∀ k, (∃ id, (k, id) ∈ (reconcile deviceID chatID env).deletions)
        ↔ ((mapLookup (buildExisting cwMsgs) k).isSome = true
          ∧ mapLookup (buildWant deviceID chatID waMsgs) k = none))
    ∧ (∀ k, (∃ c, (k, c) ∈ (reconcile deviceID chatID env).creations)
        ↔ ((mapLookup (buildWant deviceID chatID waMsgs) k).isSome = true
          ∧ mapLookup (buildExisting cwMsgs) k = none))
    ∧ (∀ k, (mapLookup (buildWant deviceID chatID waMsgs) k).isSome = true →
        (mapLookup (buildExisting cwMsgs) k).isSome = true →
        (∀ id, (k, id) ∉ (reconcile deviceID chatID env).deletions)
        ∧ (∀ c, (k, c) ∉ (reconcile deviceID chatID env).creations)) := by
  rw [reconcile_eq deviceID chatID env contact conversation waMsgs cwMsgs h1 h2 h3 h4]
  have hdel : ∀ k, (∃ id, (k, id) ∈ (buildExisting cwMsgs).filter
        (fun p => (mapLookup (buildWant deviceID chatID waMsgs) p.fst).isNone))
      ↔ ((mapLookup (buildExisting cwMsgs) k).isSome = true
        ∧ mapLookup (buildWant deviceID chatID waMsgs) k = none) := by
    intro k
    constructor
    · rintro ⟨id, hmem⟩
      have h5 := List.mem_filter.mp hmem
      refine ⟨mem_mapLookup_isSome _ _ _ h5.1, ?_⟩
      have := h5.2
      simpa [Option.isNone_iff_eq_none] using this
    · rintro ⟨hsome, hnone⟩
      obtain ⟨id, hid⟩ := Option.isSome_iff_exists.mp hsome
      refine ⟨id, List.mem_filter.mpr ⟨mapLookup_eq_some_mem _ _ _ hid, ?_⟩⟩
      simp [hnone]
  have hcre : ∀ k, (∃ c, (k, c) ∈ ((buildWant deviceID chatID waMsgs).filter
        (fun p => (mapLookup (buildExisting cwMsgs) p.fst).isNone)).map
        (fun p =>
          (p.fst, reconcileContent ((gs "@g.us").isSuffixOf chatID) p.snd, p.snd.isFromMe,
            decide (p.snd.mediaType ≠ [] ∧ p.snd.url ≠ [] ∧ p.snd.mediaKey ≠ [])
              && (env.downloadRes p.snd).isSome)))
      ↔ ((mapLookup (buildWant deviceID chatID waMsgs) k).isSome = true
        ∧ mapLookup (buildExisting cwMsgs) k = none) := by
    intro k
    constructor
    · rintro ⟨c, hmem⟩
      rw [List.mem_map] at hmem
      obtain ⟨p, hp, hfp⟩ := hmem
      have h5 := List.mem_filter.mp hp
      have hk : p.fst = k := congrArg Prod.fst hfp
      refine ⟨?_, ?_⟩
      · rw [← hk]
        exact mem_mapLookup_isSome _ _ _ (by
          have : (p.fst, p.snd) ∈ buildWant deviceID chatID waMsgs := by simpa using h5.1
          exact this)
      · rw [← hk]
        simpa [Option.isNone_iff_eq_none] using h5.2
    · rintro ⟨hsome, hnone⟩
      obtain ⟨v, hv⟩ := Option.isSome_iff_exists.mp hsome
      refine ⟨(reconcileContent ((gs "@g.us").isSuffixOf chatID) v, v.isFromMe,
        decide (v.mediaType ≠ [] ∧ v.url ≠ [] ∧ v.mediaKey ≠ [])
          && (env.downloadRes v).isSome), ?_⟩
      rw [List.mem_map]
      refine ⟨(k, v), List.mem_filter.mpr ⟨mapLookup_eq_some_mem _ _ _ hv, by simp [hnone]⟩, rfl⟩
  refine ⟨buildWant_isSome deviceID chatID waMsgs, buildExisting_isSome cwMsgs,
    hdel, hcre, ?_⟩
  intro k hw he
  constructor
  · intro id hmem
    have := (hdel k).mp ⟨id, hmem⟩
    rw [this.2] at hw
    cases hw
  · intro c hmem
    have := (hcre k).mp ⟨c, hmem⟩
    rw [this.2] at he
    cases he

/-- Concrete local messages A, B, C for the C2 witness. -/
def mWA : Message := ⟨1, gs "s", gs "A", false, [], [], [], []⟩

def mWB : Message := ⟨2, gs "s", gs "B", false, [], [], [], []⟩

def mWC : Message := ⟨3, gs "s", gs "C", false, [], [], [], []⟩

/-- Remote thread tagged A, B, D for the C2 witness. -/
def wRecRemote : List CwMsg :=
  [⟨101, messageKey (gs "dv") (gs "chat") mWA⟩,
   ⟨102, messageKey (gs "dv") (gs "chat") mWB⟩,
   ⟨103, "orphan"⟩]

def wRecEnv : RecEnv where
  contactRes := .ok ⟨1, none⟩
  convRes := .ok ⟨2⟩
  messagesRes := .ok [mWA, mWB, mWC]
  cwMsgsRes := .ok wRecRemote
  downloadRes := fun _ => none

theorem reconcile_correct_witness :
    wRecEnv.contactRes = .ok ⟨1, none⟩
    ∧ wRecEnv.cwMsgsRes = .ok wRecRemote
    ∧ ((∀ k, (mapLookup (buildWant (gs "dv") (gs "chat") [mWA, mWB, mWC]) k).isSome = true
        ↔ ∃ m ∈ [mWA, mWB, mWC], messageKey (gs "dv") (gs "chat") m = k)
      ∧ (∀ k, (mapLookup (buildExisting wRecRemote) k).isSome = true
          ↔ ∃ c ∈ wRecRemote, c.sourceID = k ∧ c.sourceID ≠ "")
      ∧ (∀ k, (∃ id, (k, id) ∈ (reconcile (gs "dv") (gs "chat") wRecEnv).deletions)
          ↔ ((mapLookup (buildExisting wRecRemote) k).isSome = true
            ∧ mapLookup (buildWant (gs "dv") (gs "chat") [mWA, mWB, mWC]) k = none))
      ∧ (∀ k, (∃ c, (k, c) ∈ (reconcile (gs "dv") (gs "chat") wRecEnv).creations)
          ↔ ((mapLookup (buildWant (gs "dv") (gs "chat") [mWA, mWB, mWC]) k).isSome = true
            ∧ mapLookup (buildExisting wRecRemote) k = none))
      ∧ (∀ k, (mapLookup (buildWant (gs "dv") (gs "chat") [mWA, mWB, mWC]) k).isSome = true →
          (mapLookup (buildExisting wRecRemote) k).isSome = true →
          (∀ id, (k, id) ∉ (reconcile (gs "dv") (gs "chat") wRecEnv).deletions)
          ∧ (∀ c, (k, c) ∉ (reconcile (gs "dv") (gs "chat") wRecEnv).creations))) :=
  ⟨rfl, rfl,
    reconcile_correct (gs "dv") (gs "chat") wRecEnv ⟨1, none⟩ ⟨2⟩ [mWA, mWB, mWC]
      wRecRemote rfl rfl rfl rfl⟩

theorem toHexStr_ne_empty (n : Nat) : toHexStr n ≠ "" := by
  rw [toHexStr]
  by_cases h : n = 0
  · rw [if_pos h]
    decide
  · rw [if_neg h]
    intro hcontra
    have hl : ((hexDigitsAux n n).reverse.map hexChar) = [] := by
      have := congrArg String.data hcontra
      simpa using this
    rw [List.map_eq_nil_iff, List.reverse_eq_nil_iff] at hl
    cases n with
    | zero => exact h rfl
    | succ m => simp [hexDigitsAux] at hl

theorem messageKey_ne_empty (deviceID chatID : GoStr) (m : Message) :
    messageKey deviceID chatID m ≠ "" :=
  toHexStr_ne_empty _

/-- A remote thread in which two messages carry the same tag. -/
def wDupRemote : List CwMsg := [⟨1, "k"⟩, ⟨2, "k"⟩]

def wRecEnvDup : RecEnv where
  contactRes := .ok ⟨1, none⟩
  convRes := .ok ⟨2⟩
  messagesRes := .ok []
  cwMsgsRes := .ok wDupRemote
  downloadRes := fun _ => none

/-- The same chat on the second run: the remote side now reflects exactly the
first run's mutations (its single deletion; it created nothing). -/
def wRecEnvDup2 : RecEnv where
  contactRes := .ok ⟨1, none⟩
  convRes := .ok ⟨2⟩
  messagesRes := .ok []
  cwMsgsRes := .ok (remoteAfter wDupRemote
    (reconcile (gs "dv") (gs "ch") wRecEnvDup) (fun _ => 104))
  downloadRes := fun _ => none

/-- C6 counterexample.  When two remote messages carry the same orphaned tag,
the first run deletes only the one held in the `existing` map (the remote ID
2 that overwrote ID 1 during map construction); the survivor still carries
the orphaned tag, so the second run — with no intervening local change and
the remote side reflecting the first run's mutations — again issues a
deletion instead of none. -/
theorem reconcile_idempotence_counterexample :
    (reconcile (gs "dv") (gs "ch") wRecEnvDup).deletions = [("k", 2)]
    ∧ (reconcile (gs "dv") (gs "ch") wRecEnvDup).creations = []
    ∧ remoteAfter wDupRemote (reconcile (gs "dv") (gs "ch") wRecEnvDup) (fun _ => 104)
        = [⟨1, "k"⟩]
    ∧ (reconcile (gs "dv") (gs "ch") wRecEnvDup2).deletions = [("k", 1)] := by
  decide

/-- C6 amended: a second `Reconcile` run over the unchanged local set, with
the remote side reflecting the first run's mutations (deleted IDs gone,
created messages present and tagged), issues zero deletions and zero
creations — provided the remote thread's message IDs are unique and no two
tagged remote messages carry the same tag.  Without the duplicate-tag proviso
the second run still mutates (see the counterexample). -/
theorem reconcile_idempotent (deviceID chatID : GoStr) (env env2 : RecEnv)
    (fresh : String → Nat) (contact : Contact) (conversation : Conversation)
    (contact2 : Contact) (conversation2 : Conversation)
    (waMsgs : List Message) (cwMsgs : List CwMsg)
    (h1 : env.contactRes = .ok contact) (h2 : env.convRes = .ok conversation)
    (h3 : env.messagesRes = .ok waMsgs) (h4 : env.cwMsgsRes = .ok cwMsgs)
    (h21 : env2.contactRes = .ok contact2) (h22 : env2.convRes = .ok conversation2)
    (h23 : env2.messagesRes = .ok waMsgs)
    (h24 : env2.cwMsgsRes = .ok (remoteAfter cwMsgs (reconcile deviceID chatID env) fresh))
    (hids : (cwMsgs.map CwMsg.id).Nodup)
    (htags : ((cwMsgs.filter (fun c => c.sourceID != "")).map CwMsg.sourceID).Nodup) :
    (reconcile deviceID chatID env2).deletions = []
    ∧ (reconcile deviceID chatID env2).creations = [] := by
  have hr1 := reconcile_eq deviceID chatID env contact conversation waMsgs cwMsgs
    h1 h2 h3 h4
  have hr2 := reconcile_eq deviceID chatID env2 contact2 conversation2 waMsgs
    (remoteAfter cwMsgs (reconcile deviceID chatID env) fresh) h21 h22 h23 h24
  have htaginj : ∀ ca, ca ∈ cwMsgs → ∀ cb, cb ∈ cwMsgs → ca.sourceID ≠ "" →
      cb.sourceID ≠ "" → ca.sourceID = cb.sourceID → ca = cb := by
    intro ca hca cb hcb hnea hneb heq
    have hca2 : ca ∈ cwMsgs.filter (fun c => c.sourceID != "") :=
      List.mem_filter.mpr ⟨hca, by simpa using hnea⟩
    have hcb2 : cb ∈ cwMsgs.filter (fun c => c.sourceID != "") :=
      List.mem_filter.mpr ⟨hcb, by simpa using hneb⟩
    exact List.inj_on_of_nodup_map htags hca2 hcb2 heq
  have hidinj : ∀ ca, ca ∈ cwMsgs → ∀ cb, cb ∈ cwMsgs → ca.id = cb.id → ca = cb := by
    intro ca hca cb hcb heq
    exact List.inj_on_of_nodup_map hids hca hcb heq
  -- A tagged remote message whose tag is still wanted survives the first
  -- run's deletions.
  have hsurvive : ∀ c1, c1 ∈ cwMsgs → c1.sourceID ≠ "" →
      (mapLookup (buildWant deviceID chatID waMsgs) c1.sourceID).isSome = true →
      ((reconcile deviceID chatID env).deletions.any (fun d => d.snd == c1.id)) = false := by
    intro c1 hc1 hne hsome
    by_contra hany
    have hany2 : ((reconcile deviceID chatID env).deletions.any
        (fun d => d.snd == c1.id)) = true := by
      simpa using hany
    obtain ⟨d, hd, hdid⟩ := List.any_eq_true.mp hany2
    rw [hr1] at hd
    simp only at hd
    have hdmem := List.mem_filter.mp hd
    have hdpair : (d.fst, d.snd) ∈ buildExisting cwMsgs := by
      simpa using hdmem.1
    obtain ⟨c4, hc4, h4k, h4id, h4ne⟩ := mem_buildExisting cwMsgs d.fst d.snd hdpair
    have hdid2 : d.snd = c1.id := by simpa using hdid
    have hc4c1 : c4 = c1 := hidinj c4 hc4 c1 hc1 (by rw [h4id, hdid2])
    have hnone : mapLookup (buildWant deviceID chatID waMsgs) d.fst = none := by
      have := hdmem.2
      simpa [Option.isNone_iff_eq_none] using this
    have hfst : d.fst = c1.sourceID := by rw [← h4k, hc4c1]
    rw [← hfst, hnone] at hsome
    simp at hsome
  constructor
  · rw [hr2]
    simp only
    rw [List.filter_eq_nil_iff]
    intro p hp hpred
    obtain ⟨k, id2⟩ := p
    simp only at hpred
    have hpair : ((k, id2) : String × Nat) ∈ buildExisting
        (remoteAfter cwMsgs (reconcile deviceID chatID env) fresh) := hp
    obtain ⟨c, hcrem, hck, hcid, hcne⟩ := mem_buildExisting _ k id2 hpair
    rw [remoteAfter, List.mem_append] at hcrem
    rw [Option.isNone_iff_eq_none] at hpred
    rcases hcrem with hcrem | hcrem
    · have hcfil := List.mem_filter.mp hcrem
      have hcin := hcfil.1
      have hsurv_false : ((reconcile deviceID chatID env).deletions.any
          (fun d => d.snd == c.id)) = false := by
        simpa using hcfil.2
      have hsome : (mapLookup (buildWant deviceID chatID waMsgs) c.sourceID).isSome = true := by
        by_contra hnone
        have hex : (mapLookup (buildExisting cwMsgs) c.sourceID).isSome = true :=
          (buildExisting_isSome cwMsgs c.sourceID).mpr ⟨c, hcin, rfl, hcne⟩
        obtain ⟨w, hw⟩ := Option.isSome_iff_exists.mp hex
        have hwmem : (c.sourceID, w) ∈ buildExisting cwMsgs :=
          mapLookup_eq_some_mem _ _ _ hw
        obtain ⟨c3, hc3, h3k, h3id, h3ne⟩ := mem_buildExisting _ _ _ hwmem
        have hc3c : c3 = c := htaginj c3 hc3 c hcin h3ne hcne h3k
        have hnone2 : mapLookup (buildWant deviceID chatID waMsgs) c.sourceID = none := by
          cases hlw : mapLookup (buildWant deviceID chatID waMsgs) c.sourceID with
          | none => rfl
          | some u => rw [hlw] at hnone; exact absurd rfl hnone
        have hdmem : (c.sourceID, w) ∈ (reconcile deviceID chatID env).deletions := by
          rw [hr1]
          simp only
          exact List.mem_filter.mpr ⟨hwmem, by simp [hnone2]⟩
        have hwid : w = c.id := by rw [← h3id, hc3c]
        have hany : ((reconcile deviceID chatID env).deletions.any
            (fun d => d.snd == c.id)) = true :=
          List.any_eq_true.mpr ⟨(c.sourceID, w), hdmem, by simp [hwid]⟩
        rw [hany] at hsurv_false
        cases hsurv_false
      rw [hck] at hsome
      rw [hpred] at hsome
      cases hsome
    · rw [List.mem_map] at hcrem
      obtain ⟨q, hq, hfq⟩ := hcrem
      rw [hr1] at hq
      simp only at hq
      rw [List.mem_map] at hq
      obtain ⟨p0, hp0, hfp0⟩ := hq
      have hp0w : p0 ∈ buildWant deviceID chatID waMsgs := (List.mem_filter.mp hp0).1
      have hsome : (mapLookup (buildWant deviceID chatID waMsgs) p0.fst).isSome = true :=
        mem_mapLookup_isSome _ _ p0.snd (by simpa using hp0w)
      have hck2 : k = p0.fst := by
        rw [← hck, ← hfq, ← hfp0]
      rw [← hck2, hpred] at hsome
      cases hsome
  · rw [hr2]
    simp only
    rw [List.map_eq_nil_iff, List.filter_eq_nil_iff]
    intro p hp hpred
    obtain ⟨k, v⟩ := p
    simp only at hpred
    obtain ⟨m0, hm0, hkey, hmv⟩ := mem_buildWant deviceID chatID waMsgs k v hp
    have hkne : k ≠ "" := hkey ▸ messageKey_ne_empty deviceID chatID m0
    have hex2 : (mapLookup (buildExisting
        (remoteAfter cwMsgs (reconcile deviceID chatID env) fresh)) k).isSome = true := by
      rw [buildExisting_isSome]
      cases hlk : mapLookup (buildExisting cwMsgs) k with
      | some w =>
        have hwmem : (k, w) ∈ buildExisting cwMsgs := mapLookup_eq_some_mem _ _ _ hlk
        obtain ⟨c1, hc1, h1k, h1id, h1ne⟩ := mem_buildExisting _ _ _ hwmem
        have hsurv := hsurvive c1 hc1 h1ne
          (by rw [h1k]; exact mem_mapLookup_isSome _ _ v hp)
        refine ⟨c1, ?_, h1k, h1ne⟩
        rw [remoteAfter, List.mem_append]
        exact Or.inl (List.mem_filter.mpr ⟨hc1, by simp [hsurv]⟩)
      | none =>
        have hfmem : ((k, v) : String × Message) ∈ (buildWant deviceID chatID waMsgs).filter
            (fun p => (mapLookup (buildExisting cwMsgs) p.fst).isNone) :=
          List.mem_filter.mpr ⟨hp, by simp [hlk]⟩
        refine ⟨⟨fresh k, k⟩, ?_, rfl, hkne⟩
        rw [remoteAfter, List.mem_append]
        right
        rw [hr1]
        simp only
        rw [List.mem_map]
        refine ⟨(k, reconcileContent ((gs "@g.us").isSuffixOf chatID) v, v.isFromMe,
          decide (v.mediaType ≠ [] ∧ v.url ≠ [] ∧ v.mediaKey ≠ [])
            && (env.downloadRes v).isSome), ?_, rfl⟩
        rw [List.mem_map]
        exact ⟨(k, v), hfmem, rfl⟩
    rw [Option.isNone_iff_eq_none] at hpred
    rw [hpred] at hex2
    cases hex2

/-- Second-run environment over the C2 scenario: the remote thread now
reflects the first run's mutations. -/
def wRecEnv2 : RecEnv where
  contactRes := .ok ⟨1, none⟩
  convRes := .ok ⟨2⟩
  messagesRes := .ok [mWA, mWB, mWC]
  cwMsgsRes := .ok (remoteAfter wRecRemote
    (reconcile (gs "dv") (gs "chat") wRecEnv) (fun _ => 200))
  downloadRes := fun _ => none

theorem reconcile_idempotent_witness :
    wRecEnv.cwMsgsRes = .ok wRecRemote
    ∧ wRecEnv2.cwMsgsRes = .ok (remoteAfter wRecRemote
        (reconcile (gs "dv") (gs "chat") wRecEnv) (fun _ => 200))
    ∧ (wRecRemote.map CwMsg.id).Nodup
    ∧ ((wRecRemote.filter (fun c => c.sourceID != "")).map CwMsg.sourceID).Nodup
    ∧ ((reconcile (gs "dv") (gs "chat") wRecEnv2).deletions = []
      ∧ (reconcile (gs "dv") (gs "chat") wRecEnv2).creations = []) :=
  ⟨rfl, rfl, by decide, by decide,
    reconcile_idempotent (gs "dv") (gs "chat") wRecEnv wRecEnv2 (fun _ => 200)
      ⟨1, none⟩ ⟨2⟩ ⟨1, none⟩ ⟨2⟩ [mWA, mWB, mWC] wRecRemote
      rfl rfl rfl rfl rfl rfl rfl rfl (by decide) (by decide)⟩

/-- C8: once the avatar bytes are downloaded (contact resolved, URL present,
HTTP 200, non-empty body), the gating is exact: if the stored hash attribute
is non-empty and equals the hash of the downloaded bytes, `UpdateContactAvatar`
is never called and no attribute write carries a hash; otherwise the upload is
called exactly once, the new hash is stamped only after the upload returned
success, and on upload failure the error propagates with no attribute write,
leaving the stored hash untouched. -/
theorem avatar_hash_gating (env : AvatarEnv) (contact : Contact) (url : GoStr)
    (imgData : List Nat)
    (h1 : env.contactRes = .ok contact) (h2 : env.jidParseOk = true)
    (h3 : env.picURL = some url) (h4 : env.downloadStatus = .ok 200)
    (h5 : env.downloadBody = .ok imgData) (h6 : imgData ≠ []) :
    ((contact.avatarHashAttr.getD "" ≠ ""
        ∧ contact.avatarHashAttr.getD "" = env.hashFn imgData) →
      (syncContactAvatarSmart env).uploads = []
      ∧ ∀ call ∈ (syncContactAvatarSmart env).attrCalls, call.hash = none)
    ∧ (¬(contact.avatarHashAttr.getD "" ≠ ""
        ∧ contact.avatarHashAttr.getD "" = env.hashFn imgData) →
      (syncContactAvatarSmart env).uploads = [(contact.id, imgData)]
      ∧ (env.uploadRes = .ok () →
          (syncContactAvatarSmart env).attrCalls = [⟨some (env.hashFn imgData)⟩]
          ∧ (syncContactAvatarSmart env).res = .ok ())
      ∧ (∀ e, env.uploadRes = .error e →
          (syncContactAvatarSmart env).attrCalls = []
          ∧ (syncContactAvatarSmart env).res = .error e)) := by
  have hbase : syncContactAvatarSmart env =
      (if contact.avatarHashAttr.getD "" ≠ ""
          ∧ contact.avatarHashAttr.getD "" = env.hashFn imgData
        then ⟨.ok (), [], [⟨none⟩]⟩
        else match env.uploadRes with
          | .error e => ⟨.error e, [(contact.id, imgData)], []⟩
          | .ok _ => ⟨.ok (), [(contact.id, imgData)], [⟨some (env.hashFn imgData)⟩]⟩) := by
    rw [syncContactAvatarSmart]
    simp [h1, h2, h3, h4, h5, h6]
  constructor
  · intro hsame
    rw [hbase, if_pos hsame]
    refine ⟨rfl, ?_⟩
    intro call hc
    have : call = (⟨none⟩ : AttrsCall) := by simpa using hc
    rw [this]
  · intro hdiff
    rw [hbase, if_neg hdiff]
    cases hup : env.uploadRes with
    | error e =>
      refine ⟨rfl, ?_, ?_⟩
      · intro h; simp at h
      · intro e2 h
        have he : e = e2 := by injection h
        subst he
        exact ⟨rfl, rfl⟩
    | ok u =>
      refine ⟨rfl, ?_, ?_⟩
      · intro _; exact ⟨rfl, rfl⟩
      · intro e2 h; simp at h

/-- Concrete avatar environment: stored hash differs from the new one. -/
def wAvatarEnv : AvatarEnv where
  contactRes := .ok ⟨5, some "h1"⟩
  jidParseOk := true
  picURL := some (gs "pic-url")
  downloadStatus := .ok 200
  downloadBody := .ok [1, 2, 3]
  uploadRes := .ok ()
  hashFn := fun _ => "h2"

theorem avatar_hash_gating_witness :
    wAvatarEnv.contactRes = .ok ⟨5, some "h1"⟩
    ∧ wAvatarEnv.downloadBody = .ok [1, 2, 3]
    ∧ ([1, 2, 3] : List Nat) ≠ []
    ∧ ((((⟨5, some "h1"⟩ : Contact).avatarHashAttr.getD "" ≠ ""
          ∧ (⟨5, some "h1"⟩ : Contact).avatarHashAttr.getD "" = wAvatarEnv.hashFn [1, 2, 3]) →
        (syncContactAvatarSmart wAvatarEnv).uploads = []
        ∧ ∀ call ∈ (syncContactAvatarSmart wAvatarEnv).attrCalls, call.hash = none)
      ∧ (¬((⟨5, some "h1"⟩ : Contact).avatarHashAttr.getD "" ≠ ""
          ∧ (⟨5, some "h1"⟩ : Contact).avatarHashAttr.getD "" = wAvatarEnv.hashFn [1, 2, 3]) →
        (syncContactAvatarSmart wAvatarEnv).uploads = [(5, [1, 2, 3])]
        ∧ (wAvatarEnv.uploadRes = .ok () →
            (syncContactAvatarSmart wAvatarEnv).attrCalls
              = [⟨some (wAvatarEnv.hashFn [1, 2, 3])⟩]
            ∧ (syncContactAvatarSmart wAvatarEnv).res = .ok ())
        ∧ (∀ e, wAvatarEnv.uploadRes = .error e →
            (syncContactAvatarSmart wAvatarEnv).attrCalls = []
            ∧ (syncContactAvatarSmart wAvatarEnv).res = .error e))) :=
  ⟨rfl, rfl, by decide,
    avatar_hash_gating wAvatarEnv ⟨5, some "h1"⟩ (gs "pic-url") [1, 2, 3]
      rfl rfl rfl rfl rfl (by decide)⟩

end Chatwoot
